import Mathlib

/-!
Verification of the hytale-manager process-lifecycle and download-orchestration
engine (src/hytale-manager.ts, src/config.ts).

The TypeScript source is shallowly embedded: the `HytaleManager` class methods
become pure Lean functions over an explicit `ManagerState`; asynchronous
effects (terminal pushes, broadcasts, stdin writes, signals, timed waits,
network downloads, metadata writes) are recorded in an explicit trace of
`Effect` values; fallible methods return an `Option AppError` or
`Except AppError` result mirroring `throw new AppError(...)`.  Results of
collaborator calls that live outside the modelled core (filesystem probes,
the release API, the settings store) are passed in as explicit parameters so
every theorem quantifies over all of their possible answers.
-/

namespace HytaleManager

/-- ServerStatus from hytale-manager.ts: the five Supervisor states. -/
inductive ServerStatus where
  | stopped
  | starting
  | running
  | stopping
  | installing
deriving DecidableEq, Repr

/-- AppError from utils.ts: an HTTP-like status code plus a message. -/
structure AppError where
  status : Int
  message : String
deriving DecidableEq, Repr

/-- The configuration fields of config.hytale that the modelled methods read. -/
structure Config where
  stopCommand : String
  shutdownTimeoutMs : Int
  terminalBufferLines : Nat
  startArgs : String
  serverDir : String
deriving DecidableEq, Repr

/-- JS String.prototype.trim over the character data: strip whitespace from
both ends.  Defined on the data list so concrete instances evaluate. -/
def jsTrim (s : String) : String :=
  ⟨((s.data.dropWhile Char.isWhitespace).reverse.dropWhile Char.isWhitespace).reverse⟩

/-- JS String.prototype.toLowerCase over the character data. -/
def jsToLower (s : String) : String :=
  ⟨s.data.map Char.toLower⟩

/-- JS String.prototype.startsWith over the character data. -/
def jsStartsWith (s pre : String) : Bool :=
  pre.data.isPrefixOf s.data

/-- The double-quote character, written by code to keep literals unambiguous. -/
def doubleQuoteChar : Char := Char.ofNat 34

/-- The single-quote character. -/
def singleQuoteChar : Char := Char.ofNat 39

/-- Helper bound used by the termination proofs for the argument scanner. -/
theorem dropWhileLengthLe (p : Char → Bool) (l : List Char) :
    (l.dropWhile p).length ≤ l.length := by
  induction l with
  | nil => simp [List.dropWhile]
  | cons c rest ih =>
    by_cases h : p c
    · simp [List.dropWhile, h]
      omega
    · simp [List.dropWhile, h]

/-- Scanner realizing the regex of parseArgs in config.ts over a char list.
The regex alternation takes, at each position, a double-quoted span, else a
single-quoted span, else a maximal run of non-whitespace characters; a quote
with no closing partner falls through to the non-whitespace run. -/
def parseArgsAux (cs : List Char) : List String :=
  match cs with
  | [] => []
  | c :: rest =>
    if c.isWhitespace then parseArgsAux rest
    else if c == doubleQuoteChar && rest.contains doubleQuoteChar then
      (rest.takeWhile (fun ch => ch != doubleQuoteChar)).asString ::
        parseArgsAux ((rest.dropWhile (fun ch => ch != doubleQuoteChar)).drop 1)
    else if c == singleQuoteChar && rest.contains singleQuoteChar then
      (rest.takeWhile (fun ch => ch != singleQuoteChar)).asString ::
        parseArgsAux ((rest.dropWhile (fun ch => ch != singleQuoteChar)).drop 1)
    else
      ((c :: rest).takeWhile (fun ch => !ch.isWhitespace)).asString ::
        parseArgsAux (rest.dropWhile (fun ch => !ch.isWhitespace))
termination_by cs.length
decreasing_by
  · simp
  · have := dropWhileLengthLe (fun ch => ch != doubleQuoteChar) rest
    simp
    omega
  · have := dropWhileLengthLe (fun ch => ch != singleQuoteChar) rest
    simp
    omega
  · have := dropWhileLengthLe (fun ch => !ch.isWhitespace) rest
    simp
    omega

/-- parseArgs from config.ts: split a raw argument string into tokens. -/
def parseArgs (raw : String) : List String :=
  parseArgsAux raw.data

/-- isManagedJavaRuntimeArgument from hytale-manager.ts: a token equal to or
prefixed by -Xms or -Xmx, case-insensitively. -/
def isManagedJavaRuntimeArgument (value : String) : Bool :=
  let normalized := jsToLower value
  normalized == "-xms" || normalized == "-xmx" ||
    jsStartsWith normalized "-xms" || jsStartsWith normalized "-xmx"

/-- ServerRuntimeSettings from hytale-manager.ts (numeric fields as integers;
the source validates them as JS integers). -/
structure ServerRuntimeSettings where
  bindPort : Int
  autoBackupEnabled : Bool
  backupFrequencyMinutes : Int
  backupMaxCount : Int
  backupDirectory : String
  javaMinHeapMb : Int
  javaMaxHeapMb : Int
  javaExtraArgs : String
deriving DecidableEq, Repr

/-- buildJavaRuntimeArgs from hytale-manager.ts: the heap flags followed by
the extra args with heap flags and -jar filtered out. -/
def buildJavaRuntimeArgs (rs : ServerRuntimeSettings) : List String :=
  let args := ["-Xms" ++ toString rs.javaMinHeapMb ++ "m",
               "-Xmx" ++ toString rs.javaMaxHeapMb ++ "m"]
  if rs.javaExtraArgs == "" then args
  else
    args ++ (parseArgs rs.javaExtraArgs).filter
      (fun arg => !isManagedJavaRuntimeArgument arg && jsToLower arg != "-jar")

/-- stripManagedRuntimeArgs from hytale-manager.ts: drops backup and bind
flags (and their value token), bare -Xms and -Xmx (and their value token),
and any inline heap flag.  The index skipping of the source for-loop is the
extra drop of the head of the remainder. -/
def stripManagedRuntimeArgs (args : List String) : List String :=
  match args with
  | [] => []
  | current :: rest =>
    if current == "--backup" then stripManagedRuntimeArgs rest
    else if current == "--bind" || current == "-b" || current == "--backup-dir" ||
        current == "--backup-frequency" || current == "--backup-max-count" then
      stripManagedRuntimeArgs (rest.drop 1)
    else if jsToLower current == "-xms" || jsToLower current == "-xmx" then
      stripManagedRuntimeArgs (rest.drop 1)
    else if isManagedJavaRuntimeArgument current then
      stripManagedRuntimeArgs rest
    else current :: stripManagedRuntimeArgs rest
termination_by args.length
decreasing_by
  · simp
  · simp
    have : (rest.drop 1).length ≤ rest.length := by
      simp
    omega
  · simp
    have : (rest.drop 1).length ≤ rest.length := by
      simp
    omega
  · simp
  · simp

/-- buildStartArguments from hytale-manager.ts: strip the configured start
arguments, splice the java runtime args before the -jar segment, then append
the bind argument and, when enabled, the backup flags. -/
def buildStartArguments (cfg : Config) (rs : ServerRuntimeSettings) : List String :=
  let baseArgs := parseArgs cfg.startArgs
  let args := stripManagedRuntimeArgs baseArgs
  let split :=
    match args.findIdx? (fun a => a == "-jar") with
    | some jarIndex => (args.take jarIndex, args.drop jarIndex)
    | none => (args, ([] : List String))
  let composed := split.1 ++ buildJavaRuntimeArgs rs ++ split.2 ++
    ["--bind", "0.0.0.0:" ++ toString rs.bindPort]
  if rs.autoBackupEnabled then
    composed ++ ["--backup", "--backup-dir", rs.backupDirectory,
      "--backup-frequency", toString rs.backupFrequencyMinutes,
      "--backup-max-count", toString rs.backupMaxCount]
  else composed

/-- Observable side effects of the Supervisor methods, in chronological
order: terminal-buffer pushes (each also broadcast as server.output),
server.state broadcasts, writes to the child process stdin, signals sent to
the child process, full timed waits that elapsed, invocations of the
download/extract sequence, and install-metadata writes. -/
inductive Effect where
  | terminalLine (source line : String)
  | broadcastState (status : ServerStatus)
  | stdinWrite (data : String)
  | killSignal (signal : String)
  | waitMs (ms : Int)
  | downloadRun
  | writeInstallMetadata (patchline version installedAt : String)
deriving DecidableEq, Repr

/-- The Supervisor instance fields of the HytaleManager class that the
modelled lifecycle methods read or mutate.  The child process handle is
abstracted to its presence, and the pending javaInstallPromise to a flag. -/
structure ManagerState where
  status : ServerStatus
  startedAt : Option String
  lastExitCode : Option Int
  terminal : List String
  processPresent : Bool
  javaInstallInFlight : Bool
deriving DecidableEq, Repr

/-- pushTerminal from hytale-manager.ts: append a source-tagged line and trim
the buffer to config.hytale.terminalBufferLines, oldest lines evicted first.
The wall-clock timestamp prefix of the source is omitted. -/
def pushTerminal (cfg : Config) (st : ManagerState) (line source : String) : ManagerState :=
  let buf := st.terminal ++ ["[" ++ source ++ "] " ++ line]
  { st with terminal := buf.drop (buf.length - cfg.terminalBufferLines) }

/-- The result of getLifecyclePrerequisites: whether the server files are
installed and the managed java binary path when present. -/
structure Prerequisites where
  serverInstalled : Bool
  javaCommand : Option String
deriving DecidableEq, Repr

/-- The missing-prerequisite names accumulated by assertLifecycleReadiness. -/
def lifecycleMissing (p : Prerequisites) : List String :=
  (if p.serverInstalled then [] else ["server files"]) ++
    (if p.javaCommand.isSome then [] else ["Adoptium JDK 25"])

/-- assertLifecycleReadiness from hytale-manager.ts: a 409 error naming each
missing prerequisite, or none when all are present. -/
def assertLifecycleReadiness (p : Prerequisites) (action : String) : Option AppError :=
  let missing := lifecycleMissing p
  if missing = [] then none
  else some ⟨409, "Cannot " ++ action ++ ": " ++ String.intercalate " and " missing ++
    " not installed. Install latest server and Adoptium JDK 25 first."⟩

/-- sendCommand from hytale-manager.ts: requires a live process, rejects an
empty command, writes the trimmed command plus newline to stdin and echoes it
to the terminal with a > prefix. -/
def sendCommand (cfg : Config) (st : ManagerState) (command : String) :
    ManagerState × List Effect × Option AppError :=
  if !st.processPresent || st.status == .stopped then
    (st, [], some ⟨409, "Server is not running."⟩)
  else
    let trimmed := jsTrim command
    if trimmed == "" then (st, [], some ⟨400, "Command cannot be empty."⟩)
    else
      (pushTerminal cfg st ("> " ++ trimmed) "system",
        [.stdinWrite (trimmed ++ "\n"), .terminalLine "system" ("> " ++ trimmed)],
        none)

/-- How the supervised child process reacts to the shutdown ladder: whether it
exits before the graceful shutdown timeout elapses, and failing that, whether
it exits within five seconds of the terminate signal. -/
structure ProcessBehavior where
  exitsOnStop : Bool
  exitsOnTerm : Bool
deriving DecidableEq, Repr

/-- The escalation tail of stop() after the optional stop command: race the
exit promise against the shutdown timeout; on timeout log, send SIGTERM, race
against a fixed five seconds; on second timeout log and send SIGKILL.  A
waitMs effect records a race whose timeout fully elapsed. -/
def stopEscalation (cfg : Config) (beh : ProcessBehavior) (st : ManagerState) :
    ManagerState × List Effect :=
  if beh.exitsOnStop then (st, [])
  else
    let st1 := pushTerminal cfg st "Graceful shutdown timed out, sending SIGTERM" "system"
    let tr1 : List Effect := [.waitMs cfg.shutdownTimeoutMs,
      .terminalLine "system" "Graceful shutdown timed out, sending SIGTERM",
      .killSignal "SIGTERM"]
    if beh.exitsOnTerm then (st1, tr1)
    else
      (pushTerminal cfg st1 "SIGTERM timed out, sending SIGKILL" "system",
        tr1 ++ [.waitMs 5000,
          .terminalLine "system" "SIGTERM timed out, sending SIGKILL",
          .killSignal "SIGKILL"])

/-- stop from hytale-manager.ts.  With no process or already stopped it only
re-checks readiness.  Otherwise it transitions to stopping, optionally sends
the configured stop command (whose sendCommand failure would propagate), and
runs the escalation ladder.  The status transition to stopped happens in the
exit handler installed by start, not here. -/
def stop (cfg : Config) (beh : ProcessBehavior) (prereq : Prerequisites)
    (force : Bool) (st : ManagerState) :
    ManagerState × List Effect × Option AppError :=
  if !st.processPresent || st.status == .stopped then
    match assertLifecycleReadiness prereq "stop" with
    | some e => (st, [], some e)
    | none => (st, [], none)
  else
    let st1 := { st with status := .stopping }
    let tr1 : List Effect := [.broadcastState .stopping]
    if !force then
      match sendCommand cfg st1 cfg.stopCommand with
      | (st2, tr2, some e) => (st2, tr1 ++ tr2, some e)
      | (st2, tr2, none) =>
        let st3 := pushTerminal cfg st2 ("Stop signal sent: " ++ cfg.stopCommand) "system"
        let tr3 := tr1 ++ tr2 ++
          [Effect.terminalLine "system" ("Stop signal sent: " ++ cfg.stopCommand)]
        let (st4, tr4) := stopEscalation cfg beh st3
        (st4, tr3 ++ tr4, none)
    else
      let (st4, tr4) := stopEscalation cfg beh st1
      (st4, tr1 ++ tr4, none)

/-- start from hytale-manager.ts.  Rejects when already running or starting,
then asserts readiness, then transitions stopped to starting to running,
spawning the process and logging the composed command line.  The runtime
settings read from the store are a parameter, as is the startedAt timestamp.
The spawn itself and the stream consumers are outside the model; the exit
handler that later resets the state is not part of the call. -/
def start (cfg : Config) (prereq : Prerequisites) (rs : ServerRuntimeSettings)
    (now : String) (st : ManagerState) :
    ManagerState × List Effect × Option AppError :=
  if st.status == .running || st.status == .starting then
    (st, [], some ⟨409, "Server is already running."⟩)
  else
    match assertLifecycleReadiness prereq "start" with
    | some e => (st, [], some e)
    | none =>
      match prereq.javaCommand with
      | none =>
        -- unreachable when readiness passed; the source throws inside the
        -- try block after transitioning to starting, then resets to stopped
        let st1 := { st with status := .stopped, startedAt := none }
        (st1, [.broadcastState .starting, .broadcastState .stopped],
          some ⟨500, "Java command is unavailable."⟩)
      | some javaCommand =>
        let command := javaCommand :: buildStartArguments cfg rs
        let line := "Starting server: " ++ String.intercalate " " command
        let st1 := pushTerminal cfg { st with status := .starting } line "system"
        let st2 := { st1 with processPresent := true, startedAt := some now, status := .running }
        (st2, [.broadcastState .starting, .terminalLine "system" line,
          .broadcastState .running], none)

/-- InstalledServerMetadata from hytale-manager.ts. -/
structure InstalledServerMetadata where
  patchline : String
  version : String
  installedAt : String
deriving DecidableEq, Repr

/-- VersionManifest as used by install: only the version participates in the
no-op comparison. -/
structure VersionManifest where
  version : String
deriving DecidableEq, Repr

/-- The result of resolveLatestReleaseManifest(true): the configured
patchline together with its latest manifest. -/
structure ResolvedLatest where
  patchline : String
  manifest : VersionManifest
deriving DecidableEq, Repr

/-- The return value of install. -/
structure InstallResult where
  installed : Bool
  version : String
  updated : Bool
  applied : Bool
deriving DecidableEq, Repr

/-- The answers of the collaborators install consults, passed explicitly:
the on-disk metadata, the (fallible) latest-manifest resolution, the two
isInstalled probes, the (fallible) download/extract/layout sequence of
installFromDownloader, and the timestamp written into the metadata. -/
structure InstallEnv where
  installedMeta : Option InstalledServerMetadata
  resolveLatest : Except AppError ResolvedLatest
  wasInstalled : Bool
  fromDownloader : Except AppError Unit
  installedAfter : Bool
  now : String
deriving Repr

/-- install from hytale-manager.ts: guarded by status = stopped, transitions
to installing, short-circuits as a no-op when the installed metadata matches
the latest manifest, otherwise runs the downloader sequence and writes fresh
metadata; the finally block always restores status = stopped, and failures
are logged to the terminal then re-thrown. -/
def install (cfg : Config) (env : InstallEnv) (st : ManagerState) :
    ManagerState × List Effect × Except AppError InstallResult :=
  if st.status != .stopped then
    (st, [], .error ⟨409, "Server must be stopped before installation."⟩)
  else
    let st1 := { st with status := .installing }
    let tr1 : List Effect := [.broadcastState .installing]
    match env.resolveLatest with
    | .error e =>
      let st2 := pushTerminal cfg st1 ("Installation failed: " ++ e.message) "system"
      ({ st2 with status := .stopped },
        tr1 ++ [.terminalLine "system" ("Installation failed: " ++ e.message),
          .broadcastState .stopped],
        .error e)
    | .ok latest =>
      let isNoOp := env.wasInstalled &&
        (match env.installedMeta with
          | some meta =>
            meta.patchline == latest.patchline && meta.version == latest.manifest.version
          | none => false)
      if isNoOp then
        let line := "Server is already on latest patchline " ++ latest.patchline ++
          " version " ++ latest.manifest.version ++ "; skipping install."
        let st2 := pushTerminal cfg st1 line "system"
        ({ st2 with status := .stopped },
          tr1 ++ [.terminalLine "system" line, .broadcastState .stopped],
          .ok ⟨true, latest.manifest.version, false, false⟩)
      else
        match env.fromDownloader with
        | .error e =>
          let st2 := pushTerminal cfg st1 ("Installation failed: " ++ e.message) "system"
          ({ st2 with status := .stopped },
            tr1 ++ [.downloadRun,
              .terminalLine "system" ("Installation failed: " ++ e.message),
              .broadcastState .stopped],
            .error e)
        | .ok _ =>
          let line := "Installation completed in " ++ cfg.serverDir
          let st2 := pushTerminal cfg st1 line "system"
          ({ st2 with status := .stopped },
            tr1 ++ [.downloadRun, .terminalLine "system" line,
              .writeInstallMetadata latest.patchline latest.manifest.version env.now,
              .broadcastState .stopped],
            .ok ⟨env.installedAfter, latest.manifest.version, env.wasInstalled, true⟩)

/-- The return value of installManagedJavaRuntime. -/
structure JavaRuntimeInstallResult where
  javaCommand : String
  javaHome : String
  releaseName : String
deriving DecidableEq, Repr

/-- The outcomes of the two possible executions inside installAdoptiumJdk25:
a fresh resolve/download/checksum/extract/relocate run, and the result a late
joiner would receive by awaiting the already-pending install promise. -/
structure JavaInstallEnv where
  runOutcome : Except AppError JavaRuntimeInstallResult
  sharedOutcome : Except AppError JavaRuntimeInstallResult
deriving Repr

/-- installAdoptiumJdk25 from hytale-manager.ts: when an install promise is
already pending, log and await it, launching nothing new; otherwise run a
fresh download/extract sequence (abstracted to its outcome plus a downloadRun
effect), holding the promise for the duration and clearing it in the finally
block, so the in-flight flag is back to false on return. -/
def installAdoptiumJdk25 (cfg : Config) (env : JavaInstallEnv) (st : ManagerState) :
    ManagerState × List Effect × Except AppError JavaRuntimeInstallResult :=
  if st.javaInstallInFlight then
    (pushTerminal cfg st "Java installation already in progress; waiting for it to finish..." "system",
      [.terminalLine "system" "Java installation already in progress; waiting for it to finish..."],
      env.sharedOutcome)
  else
    ({ st with javaInstallInFlight := false }, [.downloadRun], env.runOutcome)

/-- installManagedJavaRuntime from hytale-manager.ts: rejects with a 409
unless no process exists and status is stopped, transitions to installing,
delegates to installAdoptiumJdk25, logs and re-throws its failure, and always
restores status = stopped in the finally block. -/
def installManagedJavaRuntime (cfg : Config) (env : JavaInstallEnv) (st : ManagerState) :
    ManagerState × List Effect × Except AppError JavaRuntimeInstallResult :=
  if st.processPresent || st.status != .stopped then
    (st, [], .error ⟨409, "Server must be stopped before installing Java."⟩)
  else
    let st1 := { st with status := .installing }
    let tr1 : List Effect := [.broadcastState .installing]
    match installAdoptiumJdk25 cfg env st1 with
    | (st2, tr2, .error e) =>
      let st3 := pushTerminal cfg st2 ("Java installation failed: " ++ e.message) "system"
      ({ st3 with status := .stopped },
        tr1 ++ tr2 ++ [.terminalLine "system" ("Java installation failed: " ++ e.message),
          .broadcastState .stopped],
        .error e)
    | (st2, tr2, .ok r) =>
      ({ st2 with status := .stopped },
        tr1 ++ tr2 ++ [.broadcastState .stopped],
        .ok r)

/-- The 4 MiB minimumPartBytes of downloadFileWithParallelRanges. -/
def minimumPartBytes : Nat := 4 * 1024 * 1024

/-- The 8 MiB minimumParallelBytes threshold of downloadFileWithProgress. -/
def minimumParallelBytes : Nat := 8 * 1024 * 1024

/-- Math.max(1, Math.floor(totalBytes / minimumPartBytes)). -/
def recommendedWorkers (totalBytes : Nat) : Nat :=
  max 1 (totalBytes / minimumPartBytes)

/-- Math.max(2, Math.min(configuredConcurrency, recommendedWorkers)). -/
def workerCount (configuredConcurrency totalBytes : Nat) : Nat :=
  max 2 (min configuredConcurrency (recommendedWorkers totalBytes))

/-- Math.ceil(totalBytes / workerCount) on naturals. -/
def partSizeOf (totalBytes wc : Nat) : Nat := (totalBytes + wc - 1) / wc

/-- The part ranges built by the for loop of downloadFileWithParallelRanges:
for index growing from 0, while start = index*partSize is below totalBytes,
the inclusive range [start, min(totalBytes-1, start+partSize-1)]; the loop
breaks at the first start at or beyond the total and iterates at most
workerCount times (the fuel argument). -/
def buildParts (totalBytes partSize : Nat) : Nat → Nat → List (Nat × Nat)
  | 0, _ => []
  | fuel + 1, index =>
    let start := index * partSize
    if totalBytes ≤ start then []
    else (start, min (totalBytes - 1) (start + partSize - 1)) ::
      buildParts totalBytes partSize fuel (index + 1)

/-- The bytes a 206 range response delivers for an inclusive byte range. -/
def rangeSlice (content : List Nat) (part : Nat × Nat) : List Nat :=
  (content.drop part.1).take (part.2 - part.1 + 1)

/-- Insertion step of the ascending sort on range starts. -/
def insertByStart (x : Nat × Nat) : List (Nat × Nat) → List (Nat × Nat)
  | [] => [x]
  | y :: ys => if x.1 ≤ y.1 then x :: y :: ys else y :: insertByStart x ys

/-- The parts.sort((a, b) => a.start - b.start) call before the merge,
realized as an insertion sort on the start offsets. -/
def sortByStart : List (Nat × Nat) → List (Nat × Nat)
  | [] => []
  | x :: xs => insertByStart x (sortByStart xs)

/-- downloadFileSingleStream: the destination receives exactly the streamed
response body, i.e. the remote content. -/
def downloadFileSingleStream (content : List Nat) : List Nat := content

/-- downloadFileWithParallelRanges followed by mergeFiles: fetch every
computed range into its part, sort the parts by ascending start offset, and
concatenate them into the destination. -/
def downloadFileWithParallelRanges (content : List Nat) (configuredConcurrency : Nat) : List Nat :=
  let totalBytes := content.length
  let wc := workerCount configuredConcurrency totalBytes
  let p := partSizeOf totalBytes wc
  ((sortByStart (buildParts totalBytes p wc 0)).map (rangeSlice content)).flatten

/-- Tiling check for ranges: starting from a given offset, each range begins
exactly at the current offset, ends no earlier than it starts, and the next
range resumes at end+1, the final range ending at total-1; so the ranges are
contiguous, non-overlapping, and cover [offset, total) exactly. -/
def coversFrom (total : Nat) : Nat → List (Nat × Nat) → Bool
  | offset, [] => offset == total
  | offset, (s, e) :: rest => s == offset && decide (s ≤ e) && coversFrom total (e + 1) rest

/-- Ceiling division bound: a is covered by b parts of size ceil(a/b). -/
theorem le_mul_ceilDiv (a b : Nat) (hb : 1 ≤ b) : a ≤ b * ((a + b - 1) / b) := by
  have hdm := Nat.div_add_mod (a + b - 1) b
  have hlt : (a + b - 1) % b < b := Nat.mod_lt _ hb
  generalize hx : b * ((a + b - 1) / b) = x at hdm ⊢
  omega

/-- Splitting a list into consecutive chunks of size p and joining them gives
the list back, provided the chunks reach past the end of the list. -/
theorem join_chunks (k : Nat) : ∀ (l : List Nat) (p : Nat), 1 ≤ p → l.length ≤ k * p →
    ((List.range k).map (fun j => (l.drop (j * p)).take p)).flatten = l := by
  induction k with
  | zero =>
    intro l p hp hlen
    simp at hlen
    simp [hlen]
  | succ k ih =>
    intro l p hp hlen
    rw [List.range_succ_eq_map, List.map_cons, List.flatten_cons, List.map_map]
    have hfun : ((fun j => (l.drop (j * p)).take p) ∘ Nat.succ) =
        (fun j => ((l.drop p).drop (j * p)).take p) := by
      funext j
      simp only [Function.comp]
      rw [List.drop_drop]
      congr 2
      rw [Nat.succ_mul]
      omega
    have hlen2 : (l.drop p).length ≤ k * p := by
      rw [List.length_drop]
      have hsm : Nat.succ k * p = k * p + p := Nat.succ_mul k p
      generalize k * p = m at hsm hlen ⊢
      generalize Nat.succ k * p = m2 at hsm hlen
      omega
    rw [hfun, ih (l.drop p) p hp hlen2]
    simp

/-- Taking up to the length of a list is the same as taking more. -/
theorem take_min_length (xs : List Nat) (a : Nat) :
    xs.take (min xs.length a) = xs.take a := by
  rcases Nat.le_total xs.length a with h | h
  · rw [Nat.min_eq_left h, List.take_length, List.take_of_length_le h]
  · rw [Nat.min_eq_right h]

/-- A range list that would begin at or past the end of the content is empty. -/
theorem buildParts_eq_nil (total p fuel idx : Nat) (h : total ≤ idx * p) :
    buildParts total p fuel idx = [] := by
  cases fuel <;> simp [buildParts, h]

/-- The range slices produced by buildParts are the plain consecutive size-p
chunks of the content, starting at chunk index idx. -/
theorem buildParts_slices_flatten (l : List Nat) (p : Nat) (hp : 1 ≤ p) :
    ∀ (fuel idx : Nat),
      ((buildParts l.length p fuel idx).map (rangeSlice l)).flatten =
        ((List.range fuel).map (fun j => (l.drop ((idx + j) * p)).take p)).flatten := by
  intro fuel
  induction fuel with
  | zero => intro idx; simp [buildParts]
  | succ fuel ih =>
    intro idx
    by_cases hs : l.length ≤ idx * p
    · rw [buildParts_eq_nil _ _ _ _ hs]
      symm
      simp only [List.map_nil, List.flatten_nil, List.flatten_eq_nil_iff]
      intro xs hxs
      simp only [List.mem_map, List.mem_range] at hxs
      obtain ⟨j, _, rfl⟩ := hxs
      have hle : idx * p ≤ (idx + j) * p := Nat.mul_le_mul_right p (by omega)
      rw [List.drop_eq_nil_of_le (by omega), List.take_nil]
    · have hlt : idx * p < l.length := by omega
      simp only [buildParts, hs, if_false, List.map_cons, List.flatten_cons,
        List.range_succ_eq_map, List.map_map]
      have hhead : rangeSlice l (idx * p, min (l.length - 1) (idx * p + p - 1)) =
          (l.drop ((idx + 0) * p)).take p := by
        simp only [rangeSlice, Nat.add_zero]
        have hmin : min (l.length - 1) (idx * p + p - 1) - idx * p + 1 =
            min (l.length - idx * p) p := by
          generalize idx * p = s at hlt ⊢
          omega
        rw [hmin, ← List.length_drop, take_min_length]
      have htail : ((fun j => (l.drop ((idx + j) * p)).take p) ∘ Nat.succ) =
          (fun j => (l.drop ((idx + 1 + j) * p)).take p) := by
        funext j
        simp only [Function.comp]
        congr 3
        omega
      rw [hhead, ih (idx + 1), htail]

/-- Every range start produced from chunk index idx is at least idx*p. -/
theorem buildParts_start_le (total p : Nat) :
    ∀ fuel idx, ∀ x ∈ buildParts total p fuel idx, idx * p ≤ x.1 := by
  intro fuel
  induction fuel with
  | zero => intro idx x hx; simp [buildParts] at hx
  | succ fuel ih =>
    intro idx x hx
    by_cases h : total ≤ idx * p
    · simp [buildParts, h] at hx
    · simp only [buildParts, h, if_false, List.mem_cons] at hx
      rcases hx with rfl | hx
      · simp
      · have h1 := ih (idx + 1) x hx
        have h2 : idx * p ≤ (idx + 1) * p := Nat.mul_le_mul_right p (by omega)
        exact le_trans h2 h1

/-- The ranges come out of the loop already in ascending start order. -/
theorem buildParts_pairwise (total p : Nat) :
    ∀ fuel idx, (buildParts total p fuel idx).Pairwise (fun a b => a.1 ≤ b.1) := by
  intro fuel
  induction fuel with
  | zero => intro idx; simp [buildParts]
  | succ fuel ih =>
    intro idx
    by_cases h : total ≤ idx * p
    · simp [buildParts, h]
    · simp only [buildParts, h, if_false, List.pairwise_cons]
      refine ⟨?_, ih (idx + 1)⟩
      intro y hy
      have h1 := buildParts_start_le total p fuel (idx + 1) y hy
      have h2 : idx * p ≤ (idx + 1) * p := Nat.mul_le_mul_right p (by omega)
      exact le_trans h2 h1

/-- Inserting an element no larger than every list element puts it in front. -/
theorem insertByStart_head (x : Nat × Nat) (l : List (Nat × Nat))
    (hxl : ∀ y ∈ l, x.1 ≤ y.1) : insertByStart x l = x :: l := by
  cases l with
  | nil => rfl
  | cons y ys =>
    have h : x.1 ≤ y.1 := hxl y (by simp)
    simp [insertByStart, h]

/-- Sorting an already ascending list is the identity. -/
theorem sortByStart_sorted_id (l : List (Nat × Nat))
    (h : l.Pairwise (fun a b => a.1 ≤ b.1)) : sortByStart l = l := by
  induction l with
  | nil => rfl
  | cons x xs ih =>
    rw [List.pairwise_cons] at h
    simp only [sortByStart]
    rw [ih h.2]
    exact insertByStart_head x xs h.1

/-- The ranges tile [idx*p, total) exactly, for enough fuel. -/
theorem buildParts_covers (total p : Nat) (hp : 1 ≤ p) :
    ∀ fuel idx, idx * p < total → total ≤ (idx + fuel) * p →
      coversFrom total (idx * p) (buildParts total p fuel idx) = true := by
  intro fuel
  induction fuel with
  | zero =>
    intro idx h1 h2
    simp only [Nat.add_zero] at h2
    omega
  | succ fuel ih =>
    intro idx h1 h2
    have hneg : ¬ total ≤ idx * p := by omega
    simp only [buildParts, hneg, if_false]
    by_cases hlast : total ≤ idx * p + p
    · have hrest : buildParts total p fuel (idx + 1) = [] := by
        apply buildParts_eq_nil
        have : (idx + 1) * p = idx * p + p := by ring
        omega
      rw [hrest]
      simp only [coversFrom]
      have hmin : min (total - 1) (idx * p + p - 1) = total - 1 := by
        generalize idx * p = s at h1 hlast ⊢
        omega
      rw [hmin]
      simp only [Bool.and_eq_true, beq_iff_eq, decide_eq_true_eq]
      generalize idx * p = s at h1 hlast ⊢
      refine ⟨⟨trivial, by omega⟩, by omega⟩
    · have hmin : min (total - 1) (idx * p + p - 1) = idx * p + p - 1 := by
        generalize idx * p = s at h1 hlast ⊢
        omega
      rw [hmin]
      simp only [coversFrom, Bool.and_eq_true, beq_iff_eq, decide_eq_true_eq]
      have hnext : idx * p + p - 1 + 1 = (idx + 1) * p := by
        have : (idx + 1) * p = idx * p + p := by ring
        omega
      refine ⟨⟨trivial, by omega⟩, ?_⟩
      rw [hnext]
      apply ih (idx + 1)
      · have : (idx + 1) * p = idx * p + p := by ring
        omega
      · have heq : (idx + 1 + fuel) * p = (idx + (fuel + 1)) * p := by
          congr 1
          omega
        rw [heq]
        exact h2

/-- Facts about the worker count under the call-site preconditions of the
parallel path: at least two workers, and exactly the minimum of the
configured concurrency and the 4 MiB-part recommendation. -/
theorem workerCount_bounds (cc total : Nat) (hcc : 2 ≤ cc)
    (ht : minimumParallelBytes ≤ total) :
    workerCount cc total = min cc (total / minimumPartBytes) ∧
      2 ≤ workerCount cc total := by
  have hdiv : 2 ≤ total / minimumPartBytes := by
    apply (Nat.le_div_iff_mul_le (by simp [minimumPartBytes])).mpr
    simp only [minimumPartBytes]
    simp only [minimumParallelBytes] at ht
    omega
  have hrec : recommendedWorkers total = total / minimumPartBytes := by
    simp only [recommendedWorkers]
    omega
  have hmin : 2 ≤ min cc (total / minimumPartBytes) := by
    omega
  constructor
  · simp only [workerCount, hrec]
    omega
  · simp only [workerCount, hrec]
    omega

/-- C5: under the call-site preconditions of the parallel path (total size at
least 8 MiB, configured concurrency at least 2), the parallel-range download
produces a destination byte-identical to the single-stream download; the
computed ranges are contiguous, non-overlapping and cover bytes 0 through
totalBytes-1 exactly (coversFrom); the merge concatenates the parts in
ascending offset order (the sort is the identity on the already ascending
parts); and the worker count lies in [2, min(configured concurrency,
floor(totalBytes / 4 MiB))]. -/
theorem parallel_download_equivalence_c5 (content : List Nat) (cc : Nat)
    (htotal : minimumParallelBytes ≤ content.length) (hcc : 2 ≤ cc) :
    downloadFileWithParallelRanges content cc = downloadFileSingleStream content ∧
    coversFrom content.length 0
      (buildParts content.length
        (partSizeOf content.length (workerCount cc content.length))
        (workerCount cc content.length) 0) = true ∧
    sortByStart (buildParts content.length
        (partSizeOf content.length (workerCount cc content.length))
        (workerCount cc content.length) 0) =
      buildParts content.length
        (partSizeOf content.length (workerCount cc content.length))
        (workerCount cc content.length) 0 ∧
    2 ≤ workerCount cc content.length ∧
    workerCount cc content.length ≤ min cc (content.length / minimumPartBytes) := by
  obtain ⟨hwc_eq, hwc2⟩ := workerCount_bounds cc content.length hcc htotal
  have htpos : 1 ≤ content.length := by
    simp only [minimumParallelBytes] at htotal
    omega
  have hp : 1 ≤ partSizeOf content.length (workerCount cc content.length) := by
    unfold partSizeOf
    apply (Nat.le_div_iff_mul_le (by omega)).mpr
    omega
  have hmul : content.length ≤
      workerCount cc content.length *
        partSizeOf content.length (workerCount cc content.length) :=
    le_mul_ceilDiv content.length (workerCount cc content.length) (by omega)
  have hsort : sortByStart (buildParts content.length
      (partSizeOf content.length (workerCount cc content.length))
      (workerCount cc content.length) 0) =
      buildParts content.length
        (partSizeOf content.length (workerCount cc content.length))
        (workerCount cc content.length) 0 :=
    sortByStart_sorted_id _ (buildParts_pairwise _ _ _ _)
  refine ⟨?_, ?_, hsort, hwc2, le_of_eq hwc_eq⟩
  · simp only [downloadFileWithParallelRanges, downloadFileSingleStream]
    rw [hsort, buildParts_slices_flatten content _ hp (workerCount cc content.length) 0]
    simp only [Nat.zero_add]
    exact join_chunks _ content _ hp hmul
  · have hc := buildParts_covers content.length
      (partSizeOf content.length (workerCount cc content.length)) hp
      (workerCount cc content.length) 0 (by simpa using htpos) (by simpa using hmul)
    simpa using hc

/-- Witness for C5 at an 8 MiB content and concurrency 4. -/
theorem parallel_download_equivalence_c5_witness :
    minimumParallelBytes ≤ (List.replicate 8388608 0).length ∧
    2 ≤ 4 ∧
    (downloadFileWithParallelRanges (List.replicate 8388608 0) 4 =
        downloadFileSingleStream (List.replicate 8388608 0) ∧
      coversFrom (List.replicate 8388608 0).length 0
        (buildParts (List.replicate 8388608 0).length
          (partSizeOf (List.replicate 8388608 0).length
            (workerCount 4 (List.replicate 8388608 0).length))
          (workerCount 4 (List.replicate 8388608 0).length) 0) = true ∧
      sortByStart (buildParts (List.replicate 8388608 0).length
          (partSizeOf (List.replicate 8388608 0).length
            (workerCount 4 (List.replicate 8388608 0).length))
          (workerCount 4 (List.replicate 8388608 0).length) 0) =
        buildParts (List.replicate 8388608 0).length
          (partSizeOf (List.replicate 8388608 0).length
            (workerCount 4 (List.replicate 8388608 0).length))
          (workerCount 4 (List.replicate 8388608 0).length) 0 ∧
      2 ≤ workerCount 4 (List.replicate 8388608 0).length ∧
      workerCount 4 (List.replicate 8388608 0).length ≤
        min 4 ((List.replicate 8388608 0).length / minimumPartBytes)) :=
  ⟨by rw [List.length_replicate]; norm_num [minimumParallelBytes], by decide,
    parallel_download_equivalence_c5 (List.replicate 8388608 0) 4
      (by rw [List.length_replicate]; norm_num [minimumParallelBytes]) (by decide)⟩

/-- One character class step of the /^[a-f0-9]{64}$/ test in validateSha256. -/
def isHexDigestChar (c : Char) : Bool :=
  (decide (Char.ofNat 97 ≤ c) && decide (c ≤ Char.ofNat 102)) ||
    (decide (Char.ofNat 48 ≤ c) && decide (c ≤ Char.ofNat 57))

/-- validateSha256 from hytale-manager.ts with the SHA-256 digest abstract
(any function from the file bytes to its hex digest): reject a malformed
expected hash (not 64 lower-hex characters after trim and lowercase), then
compare the lower-cased digest of the file against it, reporting expected vs
actual on mismatch. -/
def validateSha256 (sha : List Nat → String) (content : List Nat)
    (fileName : String) (expectedHash : String) : Option AppError :=
  let normalizedExpected := jsToLower (jsTrim expectedHash)
  if !(normalizedExpected.length == 64 && normalizedExpected.data.all isHexDigestChar) then
    some ⟨400, "Manifest checksum is not a valid SHA256 hex string."⟩
  else
    let actualHash := jsToLower (sha content)
    if actualHash != normalizedExpected then
      some ⟨400, "Checksum mismatch for " ++ fileName ++ " (expected " ++
        normalizedExpected ++ ", got " ++ actualHash ++ ")."⟩
    else none

/-- The observable events of one downloadFileWithProgress call. -/
inductive DownloadEvent where
  | cacheMismatchLog
  | cacheHit (bytes : Nat)
  | networkDownload
  | savedToCache
deriving DecidableEq, Repr

/-- The outcome of one downloadFileWithProgress call for a fixed cacheKey:
the cache entry after the call, the destination bytes (none when the call
failed and removed them), the events in order, and the surfaced error. -/
structure DownloadOutcome where
  cacheAfter : Option (List Nat)
  destination : Option (List Nat)
  events : List DownloadEvent
  error : Option AppError
deriving DecidableEq, Repr

/-- downloadFileWithProgress from hytale-manager.ts for a call supplying a
cacheKey, focused on its cache discipline (steps 1 and 5 of the download
pipeline): a cache entry failing the supplied checksum is logged and deleted
and the download is re-executed, the mismatch never surfacing as an error; a
surviving entry is copied to the destination with no network transfer; with
no usable entry the remote transfer runs (its parallel/single-stream split,
proved byte-identical separately, is abstracted to the delivered bytes or a
failure) and the completed destination is copied back into the cache. -/
def downloadFileWithProgress (sha : List Nat → String)
    (transfer : Except AppError (List Nat)) (cacheEntry : Option (List Nat))
    (cacheFileName : String) (expectedSha256 : Option String) : DownloadOutcome :=
  match cacheEntry with
  | some cached =>
    let checkFailed :=
      match expectedSha256 with
      | some expected => (validateSha256 sha cached cacheFileName expected).isSome
      | none => false
    if checkFailed then
      match transfer with
      | .ok bytes => ⟨some bytes, some bytes,
          [.cacheMismatchLog, .networkDownload, .savedToCache], none⟩
      | .error e => ⟨none, none, [.cacheMismatchLog, .networkDownload], some e⟩
    else
      ⟨some cached, some cached, [.cacheHit cached.length], none⟩
  | none =>
    match transfer with
    | .ok bytes => ⟨some bytes, some bytes, [.networkDownload, .savedToCache], none⟩
    | .error e => ⟨none, none, [.networkDownload], some e⟩

/-- C6: a cache entry whose content fails the supplied expectedSha256 is
deleted and the download re-executed, with the mismatch logged but never
surfaced as an error to the caller; a cache entry whose content matches is
copied to the destination and no network download occurs. -/
theorem download_cache_discipline_c6 (sha : List Nat → String)
    (remote cached : List Nat) (name : String) (expected : String) :
    ((validateSha256 sha cached name expected).isSome = true →
      downloadFileWithProgress sha (.ok remote) (some cached) name (some expected) =
        ⟨some remote, some remote,
          [.cacheMismatchLog, .networkDownload, .savedToCache], none⟩) ∧
    (validateSha256 sha cached name expected = none →
      downloadFileWithProgress sha (.ok remote) (some cached) name (some expected) =
        ⟨some cached, some cached, [.cacheHit cached.length], none⟩ ∧
      DownloadEvent.networkDownload ∉
        (downloadFileWithProgress sha (.ok remote) (some cached) name
          (some expected)).events) := by
  constructor
  · intro h
    simp [downloadFileWithProgress, h]
  · intro h
    have h2 : (validateSha256 sha cached name expected).isSome = false := by
      simp [h]
    constructor <;> simp [downloadFileWithProgress, h2]

/-- Witness for C6: a concrete digest function with one mismatching and one
matching expected hash. -/
theorem download_cache_discipline_c6_witness :
    ((validateSha256 (fun _ => "aaaaaaaaaaaaaaaaaaaaaaaaaaaaaaaaaaaaaaaaaaaaaaaaaaaaaaaaaaaaaaaa")
        [1, 2, 3] "blob.bin"
        "bbbbbbbbbbbbbbbbbbbbbbbbbbbbbbbbbbbbbbbbbbbbbbbbbbbbbbbbbbbbbbbb").isSome = true ∧
      downloadFileWithProgress
        (fun _ => "aaaaaaaaaaaaaaaaaaaaaaaaaaaaaaaaaaaaaaaaaaaaaaaaaaaaaaaaaaaaaaaa")
        (.ok [4, 5, 6]) (some [1, 2, 3]) "blob.bin"
        (some "bbbbbbbbbbbbbbbbbbbbbbbbbbbbbbbbbbbbbbbbbbbbbbbbbbbbbbbbbbbbbbbb") =
        ⟨some [4, 5, 6], some [4, 5, 6],
          [.cacheMismatchLog, .networkDownload, .savedToCache], none⟩) ∧
    (validateSha256 (fun _ => "aaaaaaaaaaaaaaaaaaaaaaaaaaaaaaaaaaaaaaaaaaaaaaaaaaaaaaaaaaaaaaaa")
        [1, 2, 3] "blob.bin"
        "aaaaaaaaaaaaaaaaaaaaaaaaaaaaaaaaaaaaaaaaaaaaaaaaaaaaaaaaaaaaaaaa" = none ∧
      (downloadFileWithProgress
        (fun _ => "aaaaaaaaaaaaaaaaaaaaaaaaaaaaaaaaaaaaaaaaaaaaaaaaaaaaaaaaaaaaaaaa")
        (.ok [4, 5, 6]) (some [1, 2, 3]) "blob.bin"
        (some "aaaaaaaaaaaaaaaaaaaaaaaaaaaaaaaaaaaaaaaaaaaaaaaaaaaaaaaaaaaaaaaa") =
        ⟨some [1, 2, 3], some [1, 2, 3], [.cacheHit 3], none⟩ ∧
      DownloadEvent.networkDownload ∉
        (downloadFileWithProgress
          (fun _ => "aaaaaaaaaaaaaaaaaaaaaaaaaaaaaaaaaaaaaaaaaaaaaaaaaaaaaaaaaaaaaaaa")
          (.ok [4, 5, 6]) (some [1, 2, 3]) "blob.bin"
          (some "aaaaaaaaaaaaaaaaaaaaaaaaaaaaaaaaaaaaaaaaaaaaaaaaaaaaaaaaaaaaaaaa")).events)) :=
  ⟨⟨by decide,
      (download_cache_discipline_c6
        (fun _ => "aaaaaaaaaaaaaaaaaaaaaaaaaaaaaaaaaaaaaaaaaaaaaaaaaaaaaaaaaaaaaaaa")
        [4, 5, 6] [1, 2, 3] "blob.bin"
        "bbbbbbbbbbbbbbbbbbbbbbbbbbbbbbbbbbbbbbbbbbbbbbbbbbbbbbbbbbbbbbbb").1 (by decide)⟩,
    ⟨by decide,
      (download_cache_discipline_c6
        (fun _ => "aaaaaaaaaaaaaaaaaaaaaaaaaaaaaaaaaaaaaaaaaaaaaaaaaaaaaaaaaaaaaaaa")
        [4, 5, 6] [1, 2, 3] "blob.bin"
        "aaaaaaaaaaaaaaaaaaaaaaaaaaaaaaaaaaaaaaaaaaaaaaaaaaaaaaaaaaaaaaaa").2 (by decide)⟩⟩

/-- The partial payload of updateServerRuntimeSettings; a none field was not
supplied.  Numeric fields are integers (the source rejects non-integer
numbers with the same range errors it gives out-of-range integers). -/
structure RuntimeSettingsUpdate where
  bindPort : Option Int := none
  autoBackupEnabled : Option Bool := none
  backupFrequencyMinutes : Option Int := none
  backupMaxCount : Option Int := none
  javaMinHeapMb : Option Int := none
  javaMaxHeapMb : Option Int := none
  javaExtraArgs : Option String := none
deriving Repr

/-- updateServerRuntimeSettings from hytale-manager.ts: build the next
settings record from the current one with field-by-field range validation,
the min-over-max heap cross check, and the extra-args content checks; every
settings-store write happens only after all validation passed, so a thrown
error leaves the persisted settings untouched.  The function returns the
validated record together with the (key, value) pairs it persists. -/
def updateServerRuntimeSettings (current : ServerRuntimeSettings)
    (input : RuntimeSettingsUpdate) :
    Except AppError (ServerRuntimeSettings × List (String × String)) := do
  let next0 := current
  let next1 ← match input.bindPort with
    | none => Except.ok next0
    | some v =>
      if v < 1 || v > 65535 then
        Except.error ⟨400, "bindPort must be an integer between 1 and 65535."⟩
      else Except.ok { next0 with bindPort := v }
  let next2 := match input.autoBackupEnabled with
    | none => next1
    | some b => { next1 with autoBackupEnabled := b }
  let next3 ← match input.backupFrequencyMinutes with
    | none => Except.ok next2
    | some v =>
      if v < 1 || v > 24 * 60 then
        Except.error ⟨400, "backupFrequencyMinutes must be an integer between 1 and 1440."⟩
      else Except.ok { next2 with backupFrequencyMinutes := v }
  let next4 ← match input.backupMaxCount with
    | none => Except.ok next3
    | some v =>
      if v < 1 || v > 500 then
        Except.error ⟨400, "backupMaxCount must be an integer between 1 and 500."⟩
      else Except.ok { next3 with backupMaxCount := v }
  let next5 ← match input.javaMinHeapMb with
    | none => Except.ok next4
    | some v =>
      if v < 256 || v > 1024 * 1024 then
        Except.error ⟨400, "javaMinHeapMb must be an integer between 256 and 1048576."⟩
      else Except.ok { next4 with javaMinHeapMb := v }
  let next6 ← match input.javaMaxHeapMb with
    | none => Except.ok next5
    | some v =>
      if v < 256 || v > 1024 * 1024 then
        Except.error ⟨400, "javaMaxHeapMb must be an integer between 256 and 1048576."⟩
      else Except.ok { next5 with javaMaxHeapMb := v }
  if next6.javaMinHeapMb > next6.javaMaxHeapMb then
    Except.error ⟨400, "javaMinHeapMb cannot be greater than javaMaxHeapMb."⟩
  else
    let next ← match input.javaExtraArgs with
      | none => Except.ok next6
      | some s =>
        let candidate := jsTrim s
        if candidate.length > 2000 then
          Except.error ⟨400, "javaExtraArgs is too long (maximum 2000 characters)."⟩
        else
          let parsedArgs := parseArgs candidate
          if parsedArgs.any (fun token => jsToLower token == "-jar") then
            Except.error ⟨400, "javaExtraArgs cannot include '-jar'."⟩
          else if parsedArgs.any (fun token => isManagedJavaRuntimeArgument token) then
            Except.error ⟨400,
              "javaExtraArgs cannot include -Xms/-Xmx. Use javaMinHeapMb and javaMaxHeapMb instead."⟩
          else Except.ok { next6 with javaExtraArgs := candidate }
    Except.ok (next,
      [("server.bind_port", toString next.bindPort),
       ("server.auto_backup_enabled", if next.autoBackupEnabled then "1" else "0"),
       ("server.backup_frequency_minutes", toString next.backupFrequencyMinutes),
       ("server.backup_max_count", toString next.backupMaxCount),
       ("server.java_min_heap_mb", toString next.javaMinHeapMb),
       ("server.java_max_heap_mb", toString next.javaMaxHeapMb),
       ("server.java_extra_args", next.javaExtraArgs)])

/-- Any token whose characters begin -Xms is a managed heap argument. -/
theorem managed_flag_xms (v : String) (rest : List Char)
    (h : v.data = '-' :: 'X' :: 'm' :: 's' :: rest) :
    isManagedJavaRuntimeArgument v = true := by
  unfold isManagedJavaRuntimeArgument jsToLower jsStartsWith
  rw [h]
  simp [List.isPrefixOf]

/-- Any token whose characters begin -Xmx is a managed heap argument. -/
theorem managed_flag_xmx (v : String) (rest : List Char)
    (h : v.data = '-' :: 'X' :: 'm' :: 'x' :: rest) :
    isManagedJavaRuntimeArgument v = true := by
  unfold isManagedJavaRuntimeArgument jsToLower jsStartsWith
  rw [h]
  simp [List.isPrefixOf]

/-- The generated -Xms heap flag is recognized as a managed argument. -/
theorem heapFlagXms_managed (x : String) :
    isManagedJavaRuntimeArgument ("-Xms" ++ x ++ "m") = true := by
  apply managed_flag_xms _ (x.data ++ ['m'])
  rw [String.data_append, String.data_append,
    show ("-Xms" : String).data = ['-', 'X', 'm', 's'] from rfl,
    show ("m" : String).data = ['m'] from rfl]
  simp

/-- The generated -Xmx heap flag is recognized as a managed argument. -/
theorem heapFlagXmx_managed (x : String) :
    isManagedJavaRuntimeArgument ("-Xmx" ++ x ++ "m") = true := by
  apply managed_flag_xmx _ (x.data ++ ['m'])
  rw [String.data_append, String.data_append,
    show ("-Xmx" : String).data = ['-', 'X', 'm', 'x'] from rfl,
    show ("m" : String).data = ['m'] from rfl]
  simp

/-- The bind argument value 0.0.0.0:… is never a managed heap argument. -/
theorem bind_value_not_managed (t : String) :
    isManagedJavaRuntimeArgument ("0.0.0.0:" ++ t) = false := by
  unfold isManagedJavaRuntimeArgument jsToLower jsStartsWith
  rw [show ("0.0.0.0:" ++ t).data =
    ('0' :: '.' :: '0' :: '.' :: '0' :: '.' :: '0' :: ':' :: t.data) from by
    rw [String.data_append]; rfl]
  simp [List.isPrefixOf, String.ext_iff]

/-- stripManagedRuntimeArgs never lets a managed heap argument through. -/
theorem stripManagedRuntimeArgs_no_managed :
    ∀ (n : Nat) (l : List String), l.length ≤ n →
      ∀ a ∈ stripManagedRuntimeArgs l, isManagedJavaRuntimeArgument a = false := by
  intro n
  induction n with
  | zero =>
    intro l hl a ha
    have hnil : l = [] := List.length_eq_zero.mp (by omega)
    subst hnil
    simp [stripManagedRuntimeArgs] at ha
  | succ n ih =>
    intro l hl a ha
    match l with
    | [] => simp [stripManagedRuntimeArgs] at ha
    | current :: rest =>
      have hrest : rest.length ≤ n := by
        simp at hl
        omega
      have hdrop : (rest.drop 1).length ≤ n := by
        simp only [List.length_drop]
        omega
      by_cases h1 : (current == "--backup") = true
      · simp only [stripManagedRuntimeArgs, h1, if_true] at ha
        exact ih rest hrest a ha
      · by_cases h2 : (current == "--bind" || current == "-b" || current == "--backup-dir" ||
            current == "--backup-frequency" || current == "--backup-max-count") = true
        · simp only [stripManagedRuntimeArgs, h1, h2, if_true, if_false,
            Bool.false_eq_true] at ha
          exact ih (rest.drop 1) hdrop a ha
        · by_cases h3 : (jsToLower current == "-xms" || jsToLower current == "-xmx") = true
          · simp only [stripManagedRuntimeArgs, h1, h2, h3, if_true, if_false,
              Bool.false_eq_true] at ha
            exact ih (rest.drop 1) hdrop a ha
          · by_cases h4 : isManagedJavaRuntimeArgument current = true
            · simp only [stripManagedRuntimeArgs, h1, h2, h3, h4, if_true, if_false,
                Bool.false_eq_true] at ha
              exact ih rest hrest a ha
            · simp only [stripManagedRuntimeArgs, h1, h2, h3, h4, if_false,
                Bool.false_eq_true, List.mem_cons] at ha
              rcases ha with rfl | ha
              · simpa using h4
              · exact ih rest hrest a ha

/-- The filter of the java runtime args down to managed heap arguments is
exactly the two generated heap flags: the extra arguments were filtered. -/
theorem buildJavaRuntimeArgs_heap_flags (rs : ServerRuntimeSettings) :
    (buildJavaRuntimeArgs rs).filter isManagedJavaRuntimeArgument =
      ["-Xms" ++ toString rs.javaMinHeapMb ++ "m",
       "-Xmx" ++ toString rs.javaMaxHeapMb ++ "m"] := by
  unfold buildJavaRuntimeArgs
  by_cases h : (rs.javaExtraArgs == "") = true
  · simp [h, List.filter, heapFlagXms_managed, heapFlagXmx_managed]
  · simp only [h, if_false, Bool.false_eq_true, List.filter_append]
    rw [show (["-Xms" ++ toString rs.javaMinHeapMb ++ "m",
        "-Xmx" ++ toString rs.javaMaxHeapMb ++ "m"].filter isManagedJavaRuntimeArgument) =
      ["-Xms" ++ toString rs.javaMinHeapMb ++ "m",
       "-Xmx" ++ toString rs.javaMaxHeapMb ++ "m"] from by
      simp [List.filter, heapFlagXms_managed, heapFlagXmx_managed]]
    rw [List.filter_eq_nil_iff.mpr ?_, List.append_nil]
    intro a ha
    rw [List.mem_filter] at ha
    have := ha.2
    simp only [Bool.and_eq_true, Bool.not_eq_true'] at this
    simp [this.1]

/-- The managed heap flags in the full composed launch command are exactly
the two flags generated from the settings: the stripped base arguments admit
none, and neither do the bind and backup arguments (the backup directory and
the rendered backup numbers are hypotheses since they are free-form text). -/
theorem buildStartArguments_heap_flags (cfg : Config) (rs : ServerRuntimeSettings)
    (hbd : isManagedJavaRuntimeArgument rs.backupDirectory = false)
    (hbf : isManagedJavaRuntimeArgument (toString rs.backupFrequencyMinutes) = false)
    (hbc : isManagedJavaRuntimeArgument (toString rs.backupMaxCount) = false) :
    (buildStartArguments cfg rs).filter isManagedJavaRuntimeArgument =
      ["-Xms" ++ toString rs.javaMinHeapMb ++ "m",
       "-Xmx" ++ toString rs.javaMaxHeapMb ++ "m"] := by
  have hstrip : ∀ a ∈ stripManagedRuntimeArgs (parseArgs cfg.startArgs),
      isManagedJavaRuntimeArgument a = false :=
    stripManagedRuntimeArgs_no_managed (parseArgs cfg.startArgs).length _ (le_refl _)
  have hA : ∀ n, ((stripManagedRuntimeArgs (parseArgs cfg.startArgs)).take n).filter
      isManagedJavaRuntimeArgument = [] := by
    intro n
    apply List.filter_eq_nil_iff.mpr
    intro a ha
    simp [hstrip a (List.mem_of_mem_take ha)]
  have hB : ∀ n, ((stripManagedRuntimeArgs (parseArgs cfg.startArgs)).drop n).filter
      isManagedJavaRuntimeArgument = [] := by
    intro n
    apply List.filter_eq_nil_iff.mpr
    intro a ha
    simp [hstrip a (List.mem_of_mem_drop ha)]
  have hAll : (stripManagedRuntimeArgs (parseArgs cfg.startArgs)).filter
      isManagedJavaRuntimeArgument = [] := by
    apply List.filter_eq_nil_iff.mpr
    intro a ha
    simp [hstrip a ha]
  have h1 : isManagedJavaRuntimeArgument "--bind" = false := by decide
  have h2 : isManagedJavaRuntimeArgument "--backup" = false := by decide
  have h3 : isManagedJavaRuntimeArgument "--backup-dir" = false := by decide
  have h4 : isManagedJavaRuntimeArgument "--backup-frequency" = false := by decide
  have h5 : isManagedJavaRuntimeArgument "--backup-max-count" = false := by decide
  unfold buildStartArguments
  cases hidx : (stripManagedRuntimeArgs (parseArgs cfg.startArgs)).findIdx?
      (fun a => a == "-jar") with
  | none =>
    by_cases hab : rs.autoBackupEnabled <;>
      simp [hidx, hab, List.filter_append, List.filter, hAll,
        buildJavaRuntimeArgs_heap_flags, bind_value_not_managed,
        h1, h2, h3, h4, h5, hbd, hbf, hbc]
  | some i =>
    by_cases hab : rs.autoBackupEnabled <;>
      simp [hidx, hab, List.filter_append, List.filter, hA, hB,
        buildJavaRuntimeArgs_heap_flags, bind_value_not_managed,
        h1, h2, h3, h4, h5, hbd, hbf, hbc]

/-- C7: updating with javaMinHeapMb 8192 and javaMaxHeapMb 4096 is rejected
with the min-over-max validation error (and, the writes happening only after
validation, persists nothing); updating with 2048/4096 succeeds, persists
exactly those values, and the launch arguments generated from the resulting
settings contain exactly the heap flags -Xms2048m and -Xmx4096m. -/
theorem heap_validation_c7 (current : ServerRuntimeSettings) (cfg : Config)
    (hbd : isManagedJavaRuntimeArgument current.backupDirectory = false)
    (hbf : isManagedJavaRuntimeArgument (toString current.backupFrequencyMinutes) = false)
    (hbc : isManagedJavaRuntimeArgument (toString current.backupMaxCount) = false) :
    updateServerRuntimeSettings current
      ⟨none, none, none, none, some 8192, some 4096, none⟩ =
        .error ⟨400, "javaMinHeapMb cannot be greater than javaMaxHeapMb."⟩ ∧
    updateServerRuntimeSettings current
      ⟨none, none, none, none, some 2048, some 4096, none⟩ =
        .ok ({ current with javaMinHeapMb := 2048, javaMaxHeapMb := 4096 },
          [("server.bind_port", toString current.bindPort),
           ("server.auto_backup_enabled", if current.autoBackupEnabled then "1" else "0"),
           ("server.backup_frequency_minutes", toString current.backupFrequencyMinutes),
           ("server.backup_max_count", toString current.backupMaxCount),
           ("server.java_min_heap_mb", "2048"),
           ("server.java_max_heap_mb", "4096"),
           ("server.java_extra_args", current.javaExtraArgs)]) ∧
    (buildStartArguments cfg
        { current with javaMinHeapMb := 2048, javaMaxHeapMb := 4096 }).filter
      isManagedJavaRuntimeArgument = ["-Xms2048m", "-Xmx4096m"] := by
  refine ⟨?_, ?_, ?_⟩
  · simp [updateServerRuntimeSettings, Bind.bind, Except.bind]
  · simp [updateServerRuntimeSettings, Bind.bind, Except.bind]
    exact ⟨by decide, by decide⟩
  · rw [buildStartArguments_heap_flags cfg
      { current with javaMinHeapMb := 2048, javaMaxHeapMb := 4096 } hbd hbf hbc]
    norm_num
    exact ⟨by decide, by decide⟩

/-- Witness for C7 at concrete current settings and configuration. -/
theorem heap_validation_c7_witness :
    (isManagedJavaRuntimeArgument
      (ServerRuntimeSettings.backupDirectory
        ⟨25565, true, 30, 12, "/backups", 1024, 4096, ""⟩) = false) ∧
    (updateServerRuntimeSettings ⟨25565, true, 30, 12, "/backups", 1024, 4096, ""⟩
      ⟨none, none, none, none, some 8192, some 4096, none⟩ =
        .error ⟨400, "javaMinHeapMb cannot be greater than javaMaxHeapMb."⟩ ∧
    updateServerRuntimeSettings ⟨25565, true, 30, 12, "/backups", 1024, 4096, ""⟩
      ⟨none, none, none, none, some 2048, some 4096, none⟩ =
        .ok (⟨25565, true, 30, 12, "/backups", 2048, 4096, ""⟩,
          [("server.bind_port", "25565"),
           ("server.auto_backup_enabled", "1"),
           ("server.backup_frequency_minutes", "30"),
           ("server.backup_max_count", "12"),
           ("server.java_min_heap_mb", "2048"),
           ("server.java_max_heap_mb", "4096"),
           ("server.java_extra_args", "")]) ∧
    (buildStartArguments
        ⟨"/stop", 15000, 4000,
          "-XX:AOTCache=HytaleServer.aot -jar HytaleServer.jar --assets Assets.zip", "/srv"⟩
        ⟨25565, true, 30, 12, "/backups", 2048, 4096, ""⟩).filter
      isManagedJavaRuntimeArgument = ["-Xms2048m", "-Xmx4096m"]) := by
  constructor
  · decide
  · have h := heap_validation_c7 ⟨25565, true, 30, 12, "/backups", 1024, 4096, ""⟩
      ⟨"/stop", 15000, 4000,
        "-XX:AOTCache=HytaleServer.aot -jar HytaleServer.jar --assets Assets.zip", "/srv"⟩
      (by decide) (by decide) (by decide)
    exact ⟨h.1, by simpa using h.2.1, by simpa using h.2.2⟩

/-- The raw value the settings store holds under one key, as seen by the
integer reader: absent, present but not parsing to a (finite) integer
number, or an integer. -/
inductive SettingValue where
  | missing
  | nonInteger
  | int (n : Int)
deriving DecidableEq, Repr

/-- readIntegerSetting from hytale-manager.ts: fall back when the raw value
is absent, not an integer, or outside [min, max]. -/
def readIntegerSetting (raw : SettingValue) (fallback minv maxv : Int) : Int :=
  match raw with
  | .missing => fallback
  | .nonInteger => fallback
  | .int n => if n < minv || n > maxv then fallback else n

/-- readBooleanSetting from hytale-manager.ts. -/
def readBooleanSetting (raw : Option String) (fallback : Bool) : Bool :=
  match raw with
  | none => fallback
  | some r =>
    let normalized := jsToLower (jsTrim r)
    if normalized == "1" || normalized == "true" || normalized == "yes" ||
        normalized == "on" then true
    else if normalized == "0" || normalized == "false" || normalized == "no" ||
        normalized == "off" then false
    else fallback

/-- The settings-store content the runtime-settings read path consults. -/
structure SettingsStore where
  bindPort : SettingValue
  autoBackupEnabled : Option String
  backupFrequencyMinutes : SettingValue
  backupMaxCount : SettingValue
  javaMinHeapMb : SettingValue
  javaMaxHeapMb : SettingValue
  javaExtraArgs : Option String
deriving DecidableEq, Repr

/-- getServerRuntimeSettings from hytale-manager.ts.  The store values are
explicit parameters, as are the heap defaults that
resolveDefaultJavaHeapSettings computes from the configured start arguments,
and the configured backups directory.  Each heap bound is read with the
256..1048576 clamp to its fallback, and an inverted pair is then silently
swapped rather than rejected. -/
def getServerRuntimeSettings (store : SettingsStore) (heapDefaults : Int × Int)
    (backupsDir : String) : ServerRuntimeSettings :=
  let bindPort := readIntegerSetting store.bindPort 25565 1 65535
  let autoBackupEnabled := readBooleanSetting store.autoBackupEnabled true
  let backupFrequencyMinutes :=
    readIntegerSetting store.backupFrequencyMinutes 30 1 (24 * 60)
  let backupMaxCount := readIntegerSetting store.backupMaxCount 12 1 500
  let javaMinHeapMb0 :=
    readIntegerSetting store.javaMinHeapMb heapDefaults.1 256 (1024 * 1024)
  let javaMaxHeapMb0 :=
    readIntegerSetting store.javaMaxHeapMb heapDefaults.2 256 (1024 * 1024)
  let javaExtraArgs := jsTrim (store.javaExtraArgs.getD "")
  let fixed :=
    if javaMaxHeapMb0 < javaMinHeapMb0 then
      (min javaMinHeapMb0 javaMaxHeapMb0, max javaMinHeapMb0 javaMaxHeapMb0)
    else (javaMinHeapMb0, javaMaxHeapMb0)
  ⟨bindPort, autoBackupEnabled, backupFrequencyMinutes, backupMaxCount, backupsDir,
    fixed.1, fixed.2, javaExtraArgs⟩

/-- C10 (implicit): for every store content and heap defaults, the settings
read path returns javaMinHeapMb ≤ javaMaxHeapMb; a stored pair with min
greater than max, each in 256..1048576, is silently swapped rather than
rejected; and the heap flags of the launch arguments generated from the
returned record render exactly that ordered pair, so -Xms never exceeds
-Xmx. -/
theorem settings_swap_invariant_c10 (store : SettingsStore) (hd : Int × Int)
    (dir : String) :
    (getServerRuntimeSettings store hd dir).javaMinHeapMb ≤
      (getServerRuntimeSettings store hd dir).javaMaxHeapMb ∧
    (∀ m M, store.javaMinHeapMb = .int m → store.javaMaxHeapMb = .int M →
      256 ≤ m → m ≤ 1048576 → 256 ≤ M → M ≤ 1048576 → M < m →
      (getServerRuntimeSettings store hd dir).javaMinHeapMb = M ∧
      (getServerRuntimeSettings store hd dir).javaMaxHeapMb = m) ∧
    (buildJavaRuntimeArgs (getServerRuntimeSettings store hd dir)).filter
        isManagedJavaRuntimeArgument =
      ["-Xms" ++ toString (getServerRuntimeSettings store hd dir).javaMinHeapMb ++ "m",
       "-Xmx" ++ toString (getServerRuntimeSettings store hd dir).javaMaxHeapMb ++ "m"] := by
  refine ⟨?_, ?_, buildJavaRuntimeArgs_heap_flags _⟩
  · simp only [getServerRuntimeSettings]
    by_cases h : readIntegerSetting store.javaMaxHeapMb hd.2 256 1048576 <
        readIntegerSetting store.javaMinHeapMb hd.1 256 1048576 <;>
      simp [h] <;> omega
  · intro m M hm hM hm1 hm2 hM1 hM2 hlt
    have hmr : readIntegerSetting store.javaMinHeapMb hd.1 256 (1024 * 1024) = m := by
      simp [readIntegerSetting, hm]
      omega
    have hMr : readIntegerSetting store.javaMaxHeapMb hd.2 256 (1024 * 1024) = M := by
      simp [readIntegerSetting, hM]
      omega
    simp only [getServerRuntimeSettings, hmr, hMr, hlt, if_pos]
    constructor <;> simp <;> omega

/-- Witness for C10 at a store holding an inverted in-range heap pair. -/
theorem settings_swap_invariant_c10_witness :
    (SettingsStore.javaMinHeapMb
        ⟨.missing, none, .missing, .missing, .int 8192, .int 4096, none⟩ = .int 8192) ∧
    (SettingsStore.javaMaxHeapMb
        ⟨.missing, none, .missing, .missing, .int 8192, .int 4096, none⟩ = .int 4096) ∧
    ((getServerRuntimeSettings
        ⟨.missing, none, .missing, .missing, .int 8192, .int 4096, none⟩
        (2048, 4096) "/backups").javaMinHeapMb = 4096 ∧
      (getServerRuntimeSettings
        ⟨.missing, none, .missing, .missing, .int 8192, .int 4096, none⟩
        (2048, 4096) "/backups").javaMaxHeapMb = 8192) ∧
    (getServerRuntimeSettings
        ⟨.missing, none, .missing, .missing, .int 8192, .int 4096, none⟩
        (2048, 4096) "/backups").javaMinHeapMb ≤
      (getServerRuntimeSettings
        ⟨.missing, none, .missing, .missing, .int 8192, .int 4096, none⟩
        (2048, 4096) "/backups").javaMaxHeapMb :=
  ⟨rfl, rfl,
    (settings_swap_invariant_c10
      ⟨.missing, none, .missing, .missing, .int 8192, .int 4096, none⟩
      (2048, 4096) "/backups").2.1 8192 4096 rfl rfl (by decide) (by decide)
      (by decide) (by decide) (by decide),
    (settings_swap_invariant_c10
      ⟨.missing, none, .missing, .missing, .int 8192, .int 4096, none⟩
      (2048, 4096) "/backups").1⟩

/-- ServerMetricPoint from hytale-manager.ts.  Time is epoch milliseconds;
the ps-derived readings and the derived rates are exact rationals standing
in for the JS numbers. -/
structure ServerMetricPoint where
  timestamp : Int
  cpuPercent : ℚ
  rssBytes : ℚ
  virtualMemoryBytes : ℚ
  networkRxBytesPerSec : Option ℚ
  networkTxBytesPerSec : Option ℚ
deriving DecidableEq, Repr

/-- A previous network counter sample retained between ticks. -/
structure NetworkCounterSample where
  atMs : Int
  rxBytes : Int
  txBytes : Int
deriving DecidableEq, Repr

/-- The sampler state fields a metrics tick reads and writes. -/
structure MetricsState where
  metricsHistory : List ServerMetricPoint
  previousNetworkSample : Option NetworkCounterSample
deriving DecidableEq, Repr

/-- getMetricsHistoryLimit from hytale-manager.ts over an integer
configuration value. -/
def getMetricsHistoryLimit (configured : Int) : Int :=
  if configured < 10 then 300 else min 10000 configured

/-- The configured metrics history limit is always between 10 and 10000. -/
theorem getMetricsHistoryLimit_bounds (c : Int) :
    10 ≤ getMetricsHistoryLimit c ∧ getMetricsHistoryLimit c ≤ 10000 := by
  unfold getMetricsHistoryLimit
  split <;> omega

/-- The collaborator answers one sample tick sees: the wall clock, whether
the tracked process identity is still current (process handle, pid, and a
non-stopped status), the ps readings (none when ps is missing or fails), and
the platform network counters (none when unavailable). -/
structure MetricsTickInput where
  now : Int
  processCurrent : Bool
  processStats : Option (ℚ × ℚ × ℚ)
  networkCounters : Option (Int × Int)
deriving DecidableEq, Repr

/-- readSystemNetworkThroughput from hytale-manager.ts: with no counters the
previous sample is cleared and no rates are produced; otherwise the previous
sample is replaced, and rates are produced only from a previous sample with
positive elapsed time. -/
def readSystemNetworkThroughput (counters : Option (Int × Int)) (now : Int)
    (prev : Option NetworkCounterSample) :
    Option NetworkCounterSample × Option (ℚ × ℚ) :=
  match counters with
  | none => (none, none)
  | some (rx, tx) =>
    let nextPrev := some (⟨now, rx, tx⟩ : NetworkCounterSample)
    match prev with
    | none => (nextPrev, none)
    | some previous =>
      let deltaMs := now - previous.atMs
      if deltaMs ≤ 0 then (nextPrev, none)
      else
        let elapsedSeconds : ℚ := (deltaMs : ℚ) / 1000
        (nextPrev,
          some (max 0 (((rx - previous.rxBytes : Int) : ℚ) / elapsedSeconds),
            max 0 (((tx - previous.txBytes : Int) : ℚ) / elapsedSeconds)))

/-- collectAndBroadcastMetrics from hytale-manager.ts, one tick.  Sequential
ticks are serialized by the metricsCollecting reentrancy flag, so the flag is
false on entry and cleared again in the finally block; a tick whose process
identity is stale, or whose ps reading fails, changes nothing.  A produced
point is appended and the history trimmed to the configured limit, oldest
points evicted first. -/
def collectAndBroadcastMetrics (limitConfigured : Int) (inp : MetricsTickInput)
    (st : MetricsState) : MetricsState :=
  if !inp.processCurrent then st
  else
    match inp.processStats with
    | none => st
    | some (cpu, rss, vms) =>
      let res := readSystemNetworkThroughput inp.networkCounters inp.now
        st.previousNetworkSample
      let point : ServerMetricPoint :=
        ⟨inp.now, cpu, rss, vms, res.2.map Prod.fst, res.2.map Prod.snd⟩
      let history0 := st.metricsHistory ++ [point]
      let limit := getMetricsHistoryLimit limitConfigured
      let history :=
        if limit < (history0.length : Int) then
          history0.drop (history0.length - limit.toNat)
        else history0
      ⟨history, res.1⟩

/-- A run of sample ticks in order. -/
def runTicks (limitConfigured : Int) : List MetricsTickInput → MetricsState → MetricsState
  | [], st => st
  | inp :: rest, st =>
    runTicks limitConfigured rest (collectAndBroadcastMetrics limitConfigured inp st)

/-- The full chronological list of points a run of ticks produces, before
any trimming, tracking only the previous network sample. -/
def producedPoints : List MetricsTickInput → Option NetworkCounterSample →
    List ServerMetricPoint
  | [], _ => []
  | inp :: rest, prev =>
    if !inp.processCurrent then producedPoints rest prev
    else
      match inp.processStats with
      | none => producedPoints rest prev
      | some (cpu, rss, vms) =>
        let res := readSystemNetworkThroughput inp.networkCounters inp.now prev
        (⟨inp.now, cpu, rss, vms, res.2.map Prod.fst, res.2.map Prod.snd⟩ :
          ServerMetricPoint) :: producedPoints rest res.1

/-- The first throughput read of a sampling run produces no rates: there is
no previous sample yet. -/
theorem throughput_first_none (counters : Option (Int × Int)) (now : Int) :
    (readSystemNetworkThroughput counters now none).2 = none := by
  cases counters with
  | none => rfl
  | some c =>
    obtain ⟨rx, tx⟩ := c
    rfl

/-- Every successful tick produces exactly one point. -/
theorem producedPoints_length (inputs : List MetricsTickInput) :
    ∀ prev, (∀ inp ∈ inputs, inp.processCurrent = true ∧ inp.processStats.isSome = true) →
      (producedPoints inputs prev).length = inputs.length := by
  induction inputs with
  | nil =>
    intro prev _
    rfl
  | cons inp rest ih =>
    intro prev h
    have h1 := h inp (by simp)
    cases hstats : inp.processStats with
    | none =>
      rw [hstats] at h1
      simp at h1
    | some stats =>
      obtain ⟨cpu, rss, vms⟩ := stats
      simp only [producedPoints, h1.1, hstats, Bool.not_true, Bool.false_eq_true,
        if_false, List.length_cons]
      rw [ih _ (fun i hi => h i (by simp [hi]))]

/-- The retained history after a run of ticks is the suffix of the appended
point sequence past the trim index, provided the starting history is within
the limit. -/
theorem runTicks_history (limC : Int) (inputs : List MetricsTickInput) :
    ∀ st : MetricsState,
      st.metricsHistory.length ≤ (getMetricsHistoryLimit limC).toNat →
      (runTicks limC inputs st).metricsHistory =
        (st.metricsHistory ++ producedPoints inputs st.previousNetworkSample).drop
          (st.metricsHistory.length +
            (producedPoints inputs st.previousNetworkSample).length -
            (getMetricsHistoryLimit limC).toNat) := by
  induction inputs with
  | nil =>
    intro st hst
    simp only [runTicks, producedPoints, List.append_nil, List.length_nil, Nat.add_zero]
    rw [show st.metricsHistory.length - (getMetricsHistoryLimit limC).toNat = 0 from by
      omega, List.drop_zero]
  | cons inp rest ih =>
    intro st hst
    by_cases hcur : inp.processCurrent = true
    · cases hstats : inp.processStats with
      | none =>
        simp only [runTicks, collectAndBroadcastMetrics, producedPoints, hcur, hstats,
          Bool.not_true, Bool.false_eq_true, if_false]
        exact ih st hst
      | some stats =>
        obtain ⟨cpu, rss, vms⟩ := stats
        have hH : collectAndBroadcastMetrics limC inp st =
            ⟨(st.metricsHistory ++
                [(⟨inp.now, cpu, rss, vms,
                  (readSystemNetworkThroughput inp.networkCounters inp.now
                    st.previousNetworkSample).2.map Prod.fst,
                  (readSystemNetworkThroughput inp.networkCounters inp.now
                    st.previousNetworkSample).2.map Prod.snd⟩ : ServerMetricPoint)]).drop
              (st.metricsHistory.length + 1 - (getMetricsHistoryLimit limC).toNat),
              (readSystemNetworkThroughput inp.networkCounters inp.now
                st.previousNetworkSample).1⟩ := by
          simp only [collectAndBroadcastMetrics, hcur, hstats, Bool.not_true,
            Bool.false_eq_true, if_false]
          split
          · rename_i hover
            simp only [List.length_append, List.length_cons, List.length_nil] at hover ⊢
          · rename_i hunder
            simp only [List.length_append, List.length_cons, List.length_nil] at hunder
            rw [show st.metricsHistory.length + 1 -
              (getMetricsHistoryLimit limC).toNat = 0 from by omega, List.drop_zero]
        simp only [runTicks, producedPoints, hcur, hstats, Bool.not_true,
          Bool.false_eq_true, if_false]
        rw [hH]
        have hst2 : ((st.metricsHistory ++
            [(⟨inp.now, cpu, rss, vms,
              (readSystemNetworkThroughput inp.networkCounters inp.now
                st.previousNetworkSample).2.map Prod.fst,
              (readSystemNetworkThroughput inp.networkCounters inp.now
                st.previousNetworkSample).2.map Prod.snd⟩ : ServerMetricPoint)]).drop
            (st.metricsHistory.length + 1 - (getMetricsHistoryLimit limC).toNat)).length ≤
            (getMetricsHistoryLimit limC).toNat := by
          simp only [List.length_drop, List.length_append, List.length_cons,
            List.length_nil]
          omega
        rw [ih _ hst2]
        simp only [List.length_drop, List.length_append, List.length_cons,
          List.length_nil]
        rw [← List.drop_append_of_le_length (by
          simp only [List.length_append, List.length_cons, List.length_nil]
          omega)]
        rw [List.drop_drop]
        rw [List.append_assoc]
        simp only [List.singleton_append, List.length_cons]
        congr 1
        omega
    · have hcur2 : inp.processCurrent = false := by simpa using hcur
      simp only [runTicks, collectAndBroadcastMetrics, producedPoints, hcur2,
        Bool.not_false, if_true]
      exact ih st hst

/-- C9: after N successful sample ticks with N above the configured history
limit, starting from a fresh sampling state, the retained history is exactly
the last limit-many of the N chronologically produced points (so it has
length exactly the limit, in append order, oldest evicted), and the first
produced point carries null network rates. -/
theorem metrics_history_bound_c9 (limC : Int) (inputs : List MetricsTickInput)
    (hsucc : ∀ inp ∈ inputs, inp.processCurrent = true ∧ inp.processStats.isSome = true)
    (hN : (getMetricsHistoryLimit limC).toNat < inputs.length) :
    (runTicks limC inputs ⟨[], none⟩).metricsHistory =
      (producedPoints inputs none).drop
        (inputs.length - (getMetricsHistoryLimit limC).toNat) ∧
    (runTicks limC inputs ⟨[], none⟩).metricsHistory.length =
      (getMetricsHistoryLimit limC).toNat ∧
    (producedPoints inputs none).length = inputs.length ∧
    (∀ p ps, producedPoints inputs none = p :: ps →
      p.networkRxBytesPerSec = none ∧ p.networkTxBytesPerSec = none) := by
  have hlen := producedPoints_length inputs none hsucc
  have hrun := runTicks_history limC inputs ⟨[], none⟩ (by simp)
  simp only [List.nil_append, List.length_nil, Nat.zero_add] at hrun
  refine ⟨by rw [hrun, hlen], ?_, hlen, ?_⟩
  · rw [hrun, hlen]
    simp only [List.length_drop]
    omega
  · intro p ps hpp
    cases inputs with
    | nil => simp [producedPoints] at hpp
    | cons inp rest =>
      obtain ⟨hcur, hstats⟩ := hsucc inp (by simp)
      obtain ⟨⟨cpu, rss, vms⟩, hs⟩ := Option.isSome_iff_exists.mp hstats
      simp only [producedPoints, hcur, hs, Bool.not_true, Bool.false_eq_true,
        if_false, List.cons.injEq] at hpp
      rw [← hpp.1]
      simp [throughput_first_none]

/-- Witness for C9: eleven successful ticks against a configured limit 10. -/
theorem metrics_history_bound_c9_witness :
    (∀ inp ∈ List.replicate 11 (⟨0, true, some (1, 2, 3), some (5, 7)⟩ : MetricsTickInput),
      inp.processCurrent = true ∧ inp.processStats.isSome = true) ∧
    (getMetricsHistoryLimit 10).toNat <
      (List.replicate 11 (⟨0, true, some (1, 2, 3), some (5, 7)⟩ : MetricsTickInput)).length ∧
    ((runTicks 10 (List.replicate 11 ⟨0, true, some (1, 2, 3), some (5, 7)⟩)
        ⟨[], none⟩).metricsHistory =
      (producedPoints (List.replicate 11 ⟨0, true, some (1, 2, 3), some (5, 7)⟩) none).drop
        ((List.replicate 11 (⟨0, true, some (1, 2, 3), some (5, 7)⟩ : MetricsTickInput)).length -
          (getMetricsHistoryLimit 10).toNat) ∧
    (runTicks 10 (List.replicate 11 ⟨0, true, some (1, 2, 3), some (5, 7)⟩)
        ⟨[], none⟩).metricsHistory.length = (getMetricsHistoryLimit 10).toNat ∧
    (producedPoints (List.replicate 11 ⟨0, true, some (1, 2, 3), some (5, 7)⟩) none).length =
      (List.replicate 11 (⟨0, true, some (1, 2, 3), some (5, 7)⟩ : MetricsTickInput)).length ∧
    (∀ p ps,
      producedPoints (List.replicate 11 ⟨0, true, some (1, 2, 3), some (5, 7)⟩) none =
        p :: ps →
      p.networkRxBytesPerSec = none ∧ p.networkTxBytesPerSec = none)) :=
  ⟨by decide, by decide,
    metrics_history_bound_c9 10 (List.replicate 11 ⟨0, true, some (1, 2, 3), some (5, 7)⟩)
      (by decide) (by decide)⟩

/-- C2: for a process that exits neither after the textual stop command nor
after the terminate signal, stop() sends the configured stop command to the
process stdin, waits up to the configured shutdown timeout, sends SIGTERM,
waits up to the fixed five-second timeout, then sends SIGKILL, and each
escalation step is appended to the terminal buffer in that literal order. -/
theorem stop_escalation_ordering_c2 (cfg : Config) (beh : ProcessBehavior)
    (prereq : Prerequisites) (st : ManagerState)
    (hproc : st.processPresent = true) (hstatus : st.status ≠ .stopped)
    (hbs : beh.exitsOnStop = false) (hbt : beh.exitsOnTerm = false)
    (hcmd : jsTrim cfg.stopCommand ≠ "") :
    (stop cfg beh prereq false st).2 =
      ([Effect.broadcastState .stopping,
        Effect.stdinWrite (jsTrim cfg.stopCommand ++ "\n"),
        Effect.terminalLine "system" ("> " ++ jsTrim cfg.stopCommand),
        Effect.terminalLine "system" ("Stop signal sent: " ++ cfg.stopCommand),
        Effect.waitMs cfg.shutdownTimeoutMs,
        Effect.terminalLine "system" "Graceful shutdown timed out, sending SIGTERM",
        Effect.killSignal "SIGTERM",
        Effect.waitMs 5000,
        Effect.terminalLine "system" "SIGTERM timed out, sending SIGKILL",
        Effect.killSignal "SIGKILL"], none) := by
  have h1 : (st.status == ServerStatus.stopped) = false := by
    simp [hstatus]
  have h2 : (jsTrim cfg.stopCommand == "") = false := by
    simp [hcmd]
  simp [stop, sendCommand, stopEscalation, hproc, h1, h2, hbs, hbt]

/-- Witness for C2 at a concrete configuration and state. -/
theorem stop_escalation_ordering_c2_witness :
    (ManagerState.processPresent ⟨.running, some "t0", none, [], true, false⟩ = true) ∧
    (ManagerState.status ⟨.running, some "t0", none, [], true, false⟩ ≠ .stopped) ∧
    (jsTrim (Config.stopCommand ⟨"/stop", 15000, 4000, "", "/srv"⟩) ≠ "") ∧
    (stop ⟨"/stop", 15000, 4000, "", "/srv"⟩ ⟨false, false⟩ ⟨true, some "java"⟩ false
        ⟨.running, some "t0", none, [], true, false⟩).2 =
      ([Effect.broadcastState .stopping,
        Effect.stdinWrite (jsTrim "/stop" ++ "\n"),
        Effect.terminalLine "system" ("> " ++ jsTrim "/stop"),
        Effect.terminalLine "system" ("Stop signal sent: " ++ "/stop"),
        Effect.waitMs 15000,
        Effect.terminalLine "system" "Graceful shutdown timed out, sending SIGTERM",
        Effect.killSignal "SIGTERM",
        Effect.waitMs 5000,
        Effect.terminalLine "system" "SIGTERM timed out, sending SIGKILL",
        Effect.killSignal "SIGKILL"], none) :=
  ⟨rfl, by decide, by decide,
    stop_escalation_ordering_c2 ⟨"/stop", 15000, 4000, "", "/srv"⟩ ⟨false, false⟩
      ⟨true, some "java"⟩ ⟨.running, some "t0", none, [], true, false⟩
      rfl (by decide) rfl rfl (by decide)⟩

/-- C3 counterexample: with the server running and the server files missing,
start() throws the already-running conflict error, whose message does not
begin with the words the claim requires. -/
theorem start_counterexample_c3 :
    (start ⟨"/stop", 15000, 4000, "", "/srv"⟩ ⟨false, none⟩
        ⟨25565, false, 30, 12, "/backups", 2048, 4096, ""⟩ "now"
        ⟨.running, some "t0", none, [], true, false⟩).2.2 =
      some ⟨409, "Server is already running."⟩ ∧
    ¬ (jsStartsWith "Server is already running." "Cannot start:" = true) := by
  constructor
  · rfl
  · decide

/-- C3 amended: whenever status is neither running nor starting and the
server files or the managed runtime are missing, start() throws a 409 whose
message begins with "Cannot start:" and names exactly the missing
prerequisites, leaving the state unchanged with no effects; when status is
running or starting it instead throws "Server is already running.", also
with state unchanged. -/
theorem start_missing_prereqs_fails_fast_c3 (cfg : Config) (prereq : Prerequisites)
    (rs : ServerRuntimeSettings) (now : String) (st : ManagerState)
    (hnr : st.status ≠ .running) (hns : st.status ≠ .starting)
    (hmiss : prereq.serverInstalled = false ∨ prereq.javaCommand = none) :
    (start cfg prereq rs now st).1 = st ∧
    (start cfg prereq rs now st).2.1 = [] ∧
    (start cfg prereq rs now st).2.2 = some ⟨409,
      "Cannot start: " ++ String.intercalate " and " (lifecycleMissing prereq) ++
        " not installed. Install latest server and Adoptium JDK 25 first."⟩ ∧
    ("server files" ∈ lifecycleMissing prereq ↔ prereq.serverInstalled = false) ∧
    ("Adoptium JDK 25" ∈ lifecycleMissing prereq ↔ prereq.javaCommand = none) ∧
    (∃ rest,
      "Cannot start: " ++ String.intercalate " and " (lifecycleMissing prereq) ++
          " not installed. Install latest server and Adoptium JDK 25 first." =
        "Cannot start:" ++ rest) := by
  have h1 : (st.status == ServerStatus.running) = false := by
    simp [hnr]
  have h2 : (st.status == ServerStatus.starting) = false := by
    simp [hns]
  obtain ⟨si, jc⟩ := prereq
  refine ⟨?_, ?_, ?_, ?_, ?_,
    ⟨" " ++ (String.intercalate " and " (lifecycleMissing ⟨si, jc⟩) ++
      " not installed. Install latest server and Adoptium JDK 25 first."), by
        rw [show ("Cannot start: " : String) = "Cannot start:" ++ " " from rfl]
        exact String.append_assoc "Cannot start:" " " _⟩⟩
  all_goals
    cases si <;> cases jc <;>
      simp_all [start, assertLifecycleReadiness, lifecycleMissing, String.intercalate]

/-- Witness for the amended C3 at a concrete stopped state with no server
files and no managed runtime. -/
theorem start_missing_prereqs_fails_fast_c3_witness :
    (ManagerState.status ⟨.stopped, none, none, [], false, false⟩ ≠ .running) ∧
    (ManagerState.status ⟨.stopped, none, none, [], false, false⟩ ≠ .starting) ∧
    (Prerequisites.serverInstalled ⟨false, none⟩ = false ∨
      Prerequisites.javaCommand ⟨false, none⟩ = none) ∧
    ((start ⟨"/stop", 15000, 4000, "", "/srv"⟩ ⟨false, none⟩
        ⟨25565, false, 30, 12, "/backups", 2048, 4096, ""⟩ "now"
        ⟨.stopped, none, none, [], false, false⟩).1 =
          ⟨.stopped, none, none, [], false, false⟩ ∧
      (start ⟨"/stop", 15000, 4000, "", "/srv"⟩ ⟨false, none⟩
        ⟨25565, false, 30, 12, "/backups", 2048, 4096, ""⟩ "now"
        ⟨.stopped, none, none, [], false, false⟩).2.1 = [] ∧
      (start ⟨"/stop", 15000, 4000, "", "/srv"⟩ ⟨false, none⟩
        ⟨25565, false, 30, 12, "/backups", 2048, 4096, ""⟩ "now"
        ⟨.stopped, none, none, [], false, false⟩).2.2 = some ⟨409,
        "Cannot start: " ++ String.intercalate " and " (lifecycleMissing ⟨false, none⟩) ++
          " not installed. Install latest server and Adoptium JDK 25 first."⟩ ∧
      ("server files" ∈ lifecycleMissing ⟨false, none⟩ ↔
        Prerequisites.serverInstalled ⟨false, none⟩ = false) ∧
      ("Adoptium JDK 25" ∈ lifecycleMissing ⟨false, none⟩ ↔
        Prerequisites.javaCommand ⟨false, none⟩ = none) ∧
      (∃ rest,
        "Cannot start: " ++ String.intercalate " and " (lifecycleMissing ⟨false, none⟩) ++
            " not installed. Install latest server and Adoptium JDK 25 first." =
          "Cannot start:" ++ rest)) :=
  ⟨by decide, by decide, Or.inl rfl,
    start_missing_prereqs_fails_fast_c3 ⟨"/stop", 15000, 4000, "", "/srv"⟩ ⟨false, none⟩
      ⟨25565, false, 30, 12, "/backups", 2048, 4096, ""⟩ "now"
      ⟨.stopped, none, none, [], false, false⟩ (by decide) (by decide) (Or.inl rfl)⟩

/-- C1 counterexample: with a Java install in flight (status installing, the
install promise pending), a second call to installManagedJavaRuntime() is
rejected with a 409 conflict error by the status guard instead of awaiting
the in-flight promise and sharing its result. -/
theorem java_install_second_caller_counterexample_c1 :
    (installManagedJavaRuntime ⟨"/stop", 15000, 4000, "", "/srv"⟩
        ⟨.ok ⟨"jcmd", "jhome", "rel"⟩, .ok ⟨"jcmd", "jhome", "rel"⟩⟩
        ⟨.installing, none, none, [], false, true⟩).2.2 =
      .error ⟨409, "Server must be stopped before installing Java."⟩ ∧
    (installManagedJavaRuntime ⟨"/stop", 15000, 4000, "", "/srv"⟩
        ⟨.ok ⟨"jcmd", "jhome", "rel"⟩, .ok ⟨"jcmd", "jhome", "rel"⟩⟩
        ⟨.installing, none, none, [], false, true⟩).2.2 ≠
      .ok ⟨"jcmd", "jhome", "rel"⟩ := by
  constructor
  · rfl
  · intro h
    simp [installManagedJavaRuntime] at h

/-- C1 amended: a second call to installManagedJavaRuntime() while an install
is in flight (status installing) is rejected with a 409 conflict error, with
no duplicate download launched and the state untouched; the in-flight-promise
single flight lives one level down, in installAdoptiumJdk25, which for a
caller reaching it with the promise pending returns the shared in-flight
result without launching a new download/extract run. -/
theorem java_install_single_flight_c1 (cfg : Config) (env : JavaInstallEnv)
    (st : ManagerState) (hst : st.status = .installing)
    (hin : st.javaInstallInFlight = true) :
    installManagedJavaRuntime cfg env st =
      (st, [], .error ⟨409, "Server must be stopped before installing Java."⟩) ∧
    (installAdoptiumJdk25 cfg env st).2.2 = env.sharedOutcome ∧
    Effect.downloadRun ∉ (installAdoptiumJdk25 cfg env st).2.1 := by
  refine ⟨?_, ?_, ?_⟩
  · simp [installManagedJavaRuntime, hst]
  · simp [installAdoptiumJdk25, hin]
  · simp [installAdoptiumJdk25, hin]

/-- Witness for the amended C1 at a concrete in-flight state. -/
theorem java_install_single_flight_c1_witness :
    (ManagerState.status ⟨.installing, none, none, [], false, true⟩ = .installing) ∧
    (ManagerState.javaInstallInFlight ⟨.installing, none, none, [], false, true⟩ = true) ∧
    (installManagedJavaRuntime ⟨"/stop", 15000, 4000, "", "/srv"⟩
        ⟨.ok ⟨"jcmd", "jhome", "rel"⟩, .ok ⟨"jcmd", "jhome", "rel"⟩⟩
        ⟨.installing, none, none, [], false, true⟩ =
      (⟨.installing, none, none, [], false, true⟩, [],
        .error ⟨409, "Server must be stopped before installing Java."⟩) ∧
      (installAdoptiumJdk25 ⟨"/stop", 15000, 4000, "", "/srv"⟩
          ⟨.ok ⟨"jcmd", "jhome", "rel"⟩, .ok ⟨"jcmd", "jhome", "rel"⟩⟩
          ⟨.installing, none, none, [], false, true⟩).2.2 =
        JavaInstallEnv.sharedOutcome ⟨.ok ⟨"jcmd", "jhome", "rel"⟩, .ok ⟨"jcmd", "jhome", "rel"⟩⟩ ∧
      Effect.downloadRun ∉ (installAdoptiumJdk25 ⟨"/stop", 15000, 4000, "", "/srv"⟩
          ⟨.ok ⟨"jcmd", "jhome", "rel"⟩, .ok ⟨"jcmd", "jhome", "rel"⟩⟩
          ⟨.installing, none, none, [], false, true⟩).2.1) :=
  ⟨rfl, rfl,
    java_install_single_flight_c1 ⟨"/stop", 15000, 4000, "", "/srv"⟩
      ⟨.ok ⟨"jcmd", "jhome", "rel"⟩, .ok ⟨"jcmd", "jhome", "rel"⟩⟩
      ⟨.installing, none, none, [], false, true⟩ rfl rfl⟩

/-- C4: with the installed metadata matching the unchanged latest manifest
(as left behind by a first successful applied install, whose metadata write
the first conjunct pins down), a second install() call short-circuits: it
returns applied false with the installed version, runs no download and
rewrites no installed files, and returns the status to stopped. -/
theorem install_idempotent_c4 (cfg : Config) (env1 env2 : InstallEnv)
    (st1 st2 : ManagerState) (latest : ResolvedLatest) (r : InstallResult)
    (h1 : st1.status = .stopped) (hres1 : env1.resolveLatest = .ok latest)
    (hfirst : (install cfg env1 st1).2.2 = .ok r) (happ : r.applied = true)
    (h2 : st2.status = .stopped) (hres2 : env2.resolveLatest = .ok latest)
    (hmeta : env2.installedMeta = some ⟨latest.patchline, latest.manifest.version, env1.now⟩)
    (hwas : env2.wasInstalled = true) :
    Effect.writeInstallMetadata latest.patchline latest.manifest.version env1.now ∈
      (install cfg env1 st1).2.1 ∧
    (install cfg env2 st2).2.2 = .ok ⟨true, latest.manifest.version, false, false⟩ ∧
    Effect.downloadRun ∉ (install cfg env2 st2).2.1 ∧
    (∀ p v t, Effect.writeInstallMetadata p v t ∉ (install cfg env2 st2).2.1) ∧
    (install cfg env2 st2).1.status = .stopped := by
  have hg1 : (st1.status != ServerStatus.stopped) = false := by simp [h1]
  have hg2 : (st2.status != ServerStatus.stopped) = false := by simp [h2]
  refine ⟨?_, ?_, ?_, ?_, ?_⟩
  · cases hno : (env1.wasInstalled &&
        match env1.installedMeta with
        | some meta =>
          meta.patchline == latest.patchline && meta.version == latest.manifest.version
        | none => false) with
    | true =>
      simp [install, hg1, hres1, hno] at hfirst
      rw [← hfirst] at happ
      simp at happ
    | false =>
      rcases hdl : env1.fromDownloader with e | u <;>
        simp [install, hg1, hres1, hno, hdl] at hfirst ⊢
  all_goals
    simp [install, hg2, hres2, hmeta, hwas]

/-- Witness for C4: a first applied install followed by a matching second
call at a concrete environment. -/
theorem install_idempotent_c4_witness :
    (ManagerState.status ⟨.stopped, none, none, [], false, false⟩ = .stopped) ∧
    (InstallEnv.resolveLatest ⟨none, .ok ⟨"release", ⟨"1.0"⟩⟩, false, .ok (), true, "t1"⟩ =
      .ok ⟨"release", ⟨"1.0"⟩⟩) ∧
    ((install ⟨"/stop", 15000, 4000, "", "/srv"⟩
        ⟨none, .ok ⟨"release", ⟨"1.0"⟩⟩, false, .ok (), true, "t1"⟩
        ⟨.stopped, none, none, [], false, false⟩).2.2 = .ok ⟨true, "1.0", false, true⟩) ∧
    (Effect.writeInstallMetadata "release" "1.0" "t1" ∈
      (install ⟨"/stop", 15000, 4000, "", "/srv"⟩
        ⟨none, .ok ⟨"release", ⟨"1.0"⟩⟩, false, .ok (), true, "t1"⟩
        ⟨.stopped, none, none, [], false, false⟩).2.1 ∧
    (install ⟨"/stop", 15000, 4000, "", "/srv"⟩
        ⟨some ⟨"release", "1.0", "t1"⟩, .ok ⟨"release", ⟨"1.0"⟩⟩, true, .ok (), true, "t2"⟩
        ⟨.stopped, none, none, [], false, false⟩).2.2 = .ok ⟨true, "1.0", false, false⟩ ∧
    Effect.downloadRun ∉ (install ⟨"/stop", 15000, 4000, "", "/srv"⟩
        ⟨some ⟨"release", "1.0", "t1"⟩, .ok ⟨"release", ⟨"1.0"⟩⟩, true, .ok (), true, "t2"⟩
        ⟨.stopped, none, none, [], false, false⟩).2.1 ∧
    (∀ p v t, Effect.writeInstallMetadata p v t ∉ (install ⟨"/stop", 15000, 4000, "", "/srv"⟩
        ⟨some ⟨"release", "1.0", "t1"⟩, .ok ⟨"release", ⟨"1.0"⟩⟩, true, .ok (), true, "t2"⟩
        ⟨.stopped, none, none, [], false, false⟩).2.1) ∧
    (install ⟨"/stop", 15000, 4000, "", "/srv"⟩
        ⟨some ⟨"release", "1.0", "t1"⟩, .ok ⟨"release", ⟨"1.0"⟩⟩, true, .ok (), true, "t2"⟩
        ⟨.stopped, none, none, [], false, false⟩).1.status = .stopped) :=
  ⟨rfl, rfl, rfl,
    install_idempotent_c4 ⟨"/stop", 15000, 4000, "", "/srv"⟩
      ⟨none, .ok ⟨"release", ⟨"1.0"⟩⟩, false, .ok (), true, "t1"⟩
      ⟨some ⟨"release", "1.0", "t1"⟩, .ok ⟨"release", ⟨"1.0"⟩⟩, true, .ok (), true, "t2"⟩
      ⟨.stopped, none, none, [], false, false⟩ ⟨.stopped, none, none, [], false, false⟩
      ⟨"release", ⟨"1.0"⟩⟩ ⟨true, "1.0", false, true⟩
      rfl rfl rfl rfl rfl rfl rfl rfl⟩

/-- C8: any install() or installManagedJavaRuntime() call that passes its
status-is-stopped guard leaves the status stopped on return, for every
outcome of the inner resolve/download/checksum/extract/layout stages, and on
failure logs the original error to the terminal before re-throwing it. -/
theorem install_returns_to_stopped_c8 (cfg : Config) (env : InstallEnv)
    (jenv : JavaInstallEnv) (st stj : ManagerState)
    (h1 : st.status = .stopped) (h2 : stj.status = .stopped)
    (h3 : stj.processPresent = false) :
    (install cfg env st).1.status = .stopped ∧
    (∀ e, (install cfg env st).2.2 = .error e →
      Effect.terminalLine "system" ("Installation failed: " ++ e.message) ∈
        (install cfg env st).2.1) ∧
    (installManagedJavaRuntime cfg jenv stj).1.status = .stopped ∧
    (∀ e, (installManagedJavaRuntime cfg jenv stj).2.2 = .error e →
      Effect.terminalLine "system" ("Java installation failed: " ++ e.message) ∈
        (installManagedJavaRuntime cfg jenv stj).2.1) := by
  have hg1 : (st.status != ServerStatus.stopped) = false := by simp [h1]
  have hg2 : (stj.status != ServerStatus.stopped) = false := by simp [h2]
  refine ⟨?_, ?_, ?_, ?_⟩
  · rcases hres : env.resolveLatest with e | latest
    · simp [install, hg1, hres]
    · cases hno : (env.wasInstalled &&
          match env.installedMeta with
          | some meta =>
            meta.patchline == latest.patchline && meta.version == latest.manifest.version
          | none => false) with
      | true => simp [install, hg1, hres, hno]
      | false =>
        rcases hdl : env.fromDownloader with e | u <;>
          simp [install, hg1, hres, hno, hdl]
  · intro e he
    rcases hres : env.resolveLatest with e0 | latest
    · simp [install, hg1, hres] at he ⊢
      simp [he]
    · cases hno : (env.wasInstalled &&
          match env.installedMeta with
          | some meta =>
            meta.patchline == latest.patchline && meta.version == latest.manifest.version
          | none => false) with
      | true => simp [install, hg1, hres, hno] at he
      | false =>
        rcases hdl : env.fromDownloader with e0 | u <;>
          simp [install, hg1, hres, hno, hdl] at he ⊢
        simp [he]
  · rcases hfl : stj.javaInstallInFlight <;>
      rcases hro : jenv.runOutcome with e | r <;>
      rcases hso : jenv.sharedOutcome with e | r <;>
      simp [installManagedJavaRuntime, installAdoptiumJdk25, hg2, h3, hfl, hro, hso]
  · intro e he
    rcases hfl : stj.javaInstallInFlight <;>
      rcases hro : jenv.runOutcome with e0 | r <;>
      rcases hso : jenv.sharedOutcome with e0 | r <;>
      simp [installManagedJavaRuntime, installAdoptiumJdk25, hg2, h3, hfl, hro, hso] at he ⊢ <;>
      simp [he]

/-- Witness for C8 at one concrete failing install environment. -/
theorem install_returns_to_stopped_c8_witness :
    (ManagerState.status ⟨.stopped, none, none, [], false, false⟩ = .stopped) ∧
    ((install ⟨"/stop", 15000, 4000, "", "/srv"⟩
        ⟨none, .ok ⟨"release", ⟨"1.0"⟩⟩, false, .error ⟨500, "boom"⟩, false, "t1"⟩
        ⟨.stopped, none, none, [], false, false⟩).1.status = .stopped ∧
      (∀ e, (install ⟨"/stop", 15000, 4000, "", "/srv"⟩
        ⟨none, .ok ⟨"release", ⟨"1.0"⟩⟩, false, .error ⟨500, "boom"⟩, false, "t1"⟩
        ⟨.stopped, none, none, [], false, false⟩).2.2 = .error e →
        Effect.terminalLine "system" ("Installation failed: " ++ e.message) ∈
          (install ⟨"/stop", 15000, 4000, "", "/srv"⟩
            ⟨none, .ok ⟨"release", ⟨"1.0"⟩⟩, false, .error ⟨500, "boom"⟩, false, "t1"⟩
            ⟨.stopped, none, none, [], false, false⟩).2.1) ∧
      (installManagedJavaRuntime ⟨"/stop", 15000, 4000, "", "/srv"⟩
        ⟨.error ⟨500, "java boom"⟩, .ok ⟨"jcmd", "jhome", "rel"⟩⟩
        ⟨.stopped, none, none, [], false, false⟩).1.status = .stopped ∧
      (∀ e, (installManagedJavaRuntime ⟨"/stop", 15000, 4000, "", "/srv"⟩
        ⟨.error ⟨500, "java boom"⟩, .ok ⟨"jcmd", "jhome", "rel"⟩⟩
        ⟨.stopped, none, none, [], false, false⟩).2.2 = .error e →
        Effect.terminalLine "system" ("Java installation failed: " ++ e.message) ∈
          (installManagedJavaRuntime ⟨"/stop", 15000, 4000, "", "/srv"⟩
            ⟨.error ⟨500, "java boom"⟩, .ok ⟨"jcmd", "jhome", "rel"⟩⟩
            ⟨.stopped, none, none, [], false, false⟩).2.1)) :=
  ⟨rfl,
    install_returns_to_stopped_c8 ⟨"/stop", 15000, 4000, "", "/srv"⟩
      ⟨none, .ok ⟨"release", ⟨"1.0"⟩⟩, false, .error ⟨500, "boom"⟩, false, "t1"⟩
      ⟨.error ⟨500, "java boom"⟩, .ok ⟨"jcmd", "jhome", "rel"⟩⟩
      ⟨.stopped, none, none, [], false, false⟩ ⟨.stopped, none, none, [], false, false⟩
      rfl rfl rfl⟩

end HytaleManager
